import Mathlib

/-!
Token-bucket rate limiter: embedding of limit.go, main.go and util.go.

Conventions of the embedding.

* A `time.Time` is an integer count of nanoseconds since the zero `time.Time`;
  a `time.Duration` is an integer count of nanoseconds.  `Time.Sub` saturates
  at the ends of the signed 64 bit range, as the Go standard library does.
* `float64` values (`Limit`, `tokens`) are exact rationals, so every result is
  a statement about the arithmetic the code asks for, before rounding.  The
  namespace `IEEE` embeds limit.go once more with binary64 values (rounding
  to nearest even, infinities and NaN) for the inputs on which that differs.
* `int` values are integers; the only arithmetic on them is `burst - 1` under
  the guard `burst >= 1`, which cannot wrap.  The conversion `int(f)` of a
  float truncates toward zero within the 64 bit range and is left open
  outside it.
* A map is a function from keys to optional values; a loop over a map that
  only touches the entry it visits acts on each key by itself.
* Go strings are lists of characters; `/` and `:` are single bytes that occur
  in no other character of a UTF-8 string.
* Every method takes the clock reading it obtains from `time.Now()` as an
  argument and returns the new receiver state; the mutex is not modelled.
-/

namespace RateLimiter

/-- Go `time.Time`, in nanoseconds since the zero value. -/
abbrev Time := Int

/-- Go `time.Duration`, in nanoseconds. -/
abbrev Duration := Int

/-- Largest `time.Duration`, `1<<63 - 1`. -/
def maxDuration : Duration := 2 ^ 63 - 1

/-- Smallest `time.Duration`, `-1 << 63`. -/
def minDuration : Duration := -(2 ^ 63)

/-- Go `time.Minute`, in nanoseconds. -/
def Minute : Duration := 60 * 1000000000

/-- Go `Time.Sub`: the difference `t - u`, replaced by the largest or smallest
duration when it does not fit. -/
def Time.Sub (t u : Time) : Duration :=
  if t - u > maxDuration then maxDuration
  else if t - u < minDuration then minDuration
  else t - u

/-- Go `Duration.Minutes`: whole minutes plus the remaining nanoseconds as a
fraction of a minute (integer division and remainder truncate toward zero). -/
def Duration.Minutes (d : Duration) : ℚ :=
  ((Int.tdiv d Minute : Int) : ℚ) + ((Int.tmod d Minute : Int) : ℚ) / (60 * 1000000000)

/-- Type `Limit` of limit.go: a number of events per minute. -/
abbrev Limit := ℚ

/-- Constant `Inf` of limit.go: `Limit(math.MaxFloat64)`. -/
def Inf : Limit := 2 ^ 1024 - 2 ^ 971

/-- Struct `Limiter` of limit.go, without its mutex. -/
structure Limiter where
  limit : Limit
  burst : Int
  tokens : ℚ
  last : Time
  deriving DecidableEq

/-- Function `NewLimiter` of limit.go: `tokens` and `last` take their zero values. -/
def NewLimiter (r : Limit) (b : Int) : Limiter :=
  { limit := r, burst := b, tokens := 0, last := 0 }

/-- Method `Limit.tokensFromDuration` of limit.go. -/
def tokensFromDuration (limit : Limit) (d : Duration) : ℚ :=
  if limit ≤ 0 then 0 else Duration.Minutes d * limit

/-- Method `Limiter.advance` of limit.go: the clock reading and the refilled
token count; the receiver is not changed. -/
def Limiter.advance (lim : Limiter) (t : Time) : Time × ℚ :=
  let elapsed := Time.Sub t lim.last
  let delta := tokensFromDuration lim.limit elapsed
  let tokens := lim.tokens + delta
  let tokens := if tokens > (lim.burst : ℚ) then (lim.burst : ℚ) else tokens
  (t, tokens)

/-- Method `Limiter.Allow` of limit.go, called when the clock reads `now`:
the reported decision and the limiter afterwards. -/
def Limiter.Allow (lim : Limiter) (now : Time) : Bool × Limiter :=
  if lim.limit = Inf then (true, lim)
  else if lim.limit = 0 then
    if lim.burst ≥ 1 then (true, { lim with burst := lim.burst - 1 })
    else (false, lim)
  else
    let (t, tokens) := lim.advance now
    let tokens := tokens - 1
    if tokens > 0 then (true, { lim with last := t, tokens := tokens })
    else (false, lim)

/-- Method `Limiter.SetLimit` of limit.go, called when the clock reads `now`. -/
def Limiter.SetLimit (lim : Limiter) (now : Time) (newLimit : Limit) : Limiter :=
  let (t, tokens) := lim.advance now
  { lim with last := t, tokens := tokens, limit := newLimit }

/-- Method `Limiter.SetBurst` of limit.go, called when the clock reads `now`. -/
def Limiter.SetBurst (lim : Limiter) (now : Time) (newBurst : Int) : Limiter :=
  let (t, tokens) := lim.advance now
  { lim with last := t, tokens := tokens, burst := newBurst }

/-- A run of `Allow` calls on one limiter, one call per clock reading, in
order: the decisions and the limiter after the last call. -/
def allowSeq (lim : Limiter) : List Time → List Bool × Limiter
  | [] => ([], lim)
  | t :: ts =>
    let r := lim.Allow t
    let rest := allowSeq r.2 ts
    (r.1 :: rest.1, rest.2)

/-- Clock readings of the admitted calls of a run of `Allow` calls. -/
def admittedTimes (lim : Limiter) : List Time → List Time
  | [] => []
  | t :: ts =>
    let r := lim.Allow t
    if r.1 then t :: admittedTimes r.2 ts else admittedTimes r.2 ts

/-- Struct `client` of main.go: the limiter of one identity and the time of
its latest admission check. -/
structure client where
  limiter : Limiter
  lastSeen : Time
  deriving DecidableEq

/-- Struct `IncommingLimit` of main.go: the defaults a route is registered with. -/
structure IncommingLimit where
  limit : Limit
  brust : Int

/-- Package variable `clients` of main.go: the map from identity to client.
Each identity owns its `client` and its `Limiter`, so the pointers of the
source are values here. -/
abbrev Clients := String → Option client

/-- Handler body of `PerClientRateLimiter` of main.go for a request whose path
is `id`, up to the decision: look the identity up and create its client when
it is not found, store the clock reading `seen` in `lastSeen`, then call
`Allow`, whose own clock reading is `now`.  The result is `true` when `next`
is called and `false` when the request is answered with 429, together with
the map afterwards. -/
def PerClientRateLimiter (incommming : IncommingLimit) (clients : Clients) (id : String)
    (seen now : Time) : Bool × Clients :=
  let c : client :=
    match clients id with
    | some c => c
    | none => { limiter := NewLimiter incommming.limit incommming.brust, lastSeen := 0 }
  let c : client := { c with lastSeen := seen }
  let r := c.limiter.Allow now
  (r.1, Function.update clients id (some { c with limiter := r.2 }))

/-- A run of admission checks on the map of clients, in order; each check
carries the defaults of its route, its identity and its two clock readings.
The result is the map after the last check. -/
def runChecks (clients : Clients) : List (IncommingLimit × String × Time × Time) → Clients
  | [] => clients
  | (incommming, id, seen, now) :: rest =>
    runChecks (PerClientRateLimiter incommming clients id seen now).2 rest

/-- One pass of the loop of `CleanupClients` of main.go over the map, between
`mu.Lock()` and `mu.Unlock()`: the entry of `id` is deleted when
`time.Since(client.lastSeen) > 3*time.Minute`, where `now id` is the clock
reading `time.Since` takes while that entry is visited.  Deleting an entry
touches no other key, so the pass acts on each key by itself. -/
def CleanupClients (clients : Clients) (now : String → Time) : Clients :=
  fun id =>
    match clients id with
    | none => none
    | some c => if Time.Sub (now id) c.lastSeen > 3 * Minute then none else some c

/-- Go conversion `int(f)` of a `float64`: the fraction is discarded (the value
is truncated toward zero).  When the truncated value does not fit in 64 bits
the language leaves the result to the implementation; it is `outOfRange` here. -/
def floatToInt (outOfRange : Int) (f : ℚ) : Int :=
  let z : Int := if 0 ≤ f then ⌊f⌋ else ⌈f⌉
  if -(2 ^ 63) ≤ z ∧ z ≤ 2 ^ 63 - 1 then z else outOfRange

/-- Loop of `UpdateRateLimiterHandler` of main.go for a query value that
`strconv.ParseFloat` accepted as `limit`: on the limiter of every client,
`SetLimit(Limit(limit))` and then `SetBurst(int(limit))`, whose clock readings
for the entry of `id` are `now1 id` and `now2 id`. -/
def UpdateRateLimiterHandler (outOfRange : Int) (clients : Clients) (limit : ℚ)
    (now1 now2 : String → Time) : Clients :=
  fun id =>
    match clients id with
    | none => none
    | some c =>
      some { c with
        limiter := (c.limiter.SetLimit (now1 id) limit).SetBurst (now2 id)
          (floatToInt outOfRange limit) }

/-- A call on a limiter: `Allow()`, `SetLimit(newLimit)` or `SetBurst(newBurst)`. -/
inductive Call where
  | allow : Call
  | setLimit : Limit → Call
  | setBurst : Int → Call

/-- The limiter after one call made when the clock reads `now`. -/
def Limiter.call (lim : Limiter) (c : Call) (now : Time) : Limiter :=
  match c with
  | Call.allow => (lim.Allow now).2
  | Call.setLimit newLimit => lim.SetLimit now newLimit
  | Call.setBurst newBurst => lim.SetBurst now newBurst

/-- The limiter after a run of calls, each with its clock reading, in order. -/
def runCalls (lim : Limiter) : List (Call × Time) → Limiter
  | [] => lim
  | (c, now) :: rest => runCalls (lim.call c now) rest

/-- Go `strings.Trim(s, "/")`: all leading and trailing `/` removed. -/
def Trim (s : List Char) : List Char :=
  (s.dropWhile (fun c => c = '/')).rdropWhile (fun c => c = '/')

/-- Scanner behind `Split`: `cur` is the segment read so far. -/
def splitGo (cur : List Char) : List Char → List (List Char)
  | [] => [cur]
  | c :: cs => if c = '/' then cur :: splitGo [] cs else splitGo (cur ++ [c]) cs

/-- Go `strings.Split(s, "/")`: the pieces of `s` between its `/`, one more than
the number of `/` in `s`. -/
def Split (s : List Char) : List (List Char) := splitGo [] s

/-- Go `strings.HasPrefix(segment, ":")`. -/
def startsWithColon (segment : List Char) : Bool :=
  match segment with
  | c :: _ => c = ':'
  | [] => false

/-- Loop of `ParseID` of util.go over the pattern segments that are left, `i`
being the index of the first of them.  The result is `none` when the indexing
`pathSegments[i]` is out of range (a run-time panic), and otherwise the pair of
the returned string and error. -/
def parseLoop (pathSegments : List (List Char)) :
    Nat → List (List Char) → Option (String × Option String)
  | _, [] => some ("", some "no dynamic parameter found")
  | i, segment :: rest =>
    if startsWithColon segment then
      match pathSegments.get? i with
      | some seg => some (String.mk seg, none)
      | none => none
    else parseLoop pathSegments (i + 1) rest

/-- Function `ParseID` of util.go; strings are lists of characters.  The result
is `none` for a run-time panic, and otherwise the returned string and error. -/
def ParseID (path pattern : String) : Option (String × Option String) :=
  let pathSegments := Split (Trim path.data)
  let patternSegments := Split (Trim pattern.data)
  if pathSegments.length ≠ patternSegments.length then
    some ("", some "path does not match the expected pattern")
  else parseLoop pathSegments 0 patternSegments

/-! ## The arithmetic of limit.go in float64

A second embedding of limit.go, in which `Limit` and `tokens` are IEEE 754
binary64 values and every operation rounds as the hardware does.  It is used
to evaluate the code where rounding, a NaN or an infinity decides. -/

namespace IEEE

/-- A `float64`: not a number, an infinity (the negative one when the flag is
true), or a finite value, held as the rational it stands for.  The two zeros
are one value: they compare equal, and the code never divides by a zero. -/
inductive F64 where
  | nan : F64
  | inf (negative : Bool) : F64
  | fin (q : ℚ) : F64
  deriving DecidableEq

/-- The integer nearest to `x`, the even one of the two when `x` lies halfway. -/
def roundHalfEven (x : ℚ) : Int :=
  if x - (⌊x⌋ : ℚ) < 1 / 2 then ⌊x⌋
  else if x - (⌊x⌋ : ℚ) > 1 / 2 then ⌊x⌋ + 1
  else if ⌊x⌋ % 2 = 0 then ⌊x⌋ else ⌊x⌋ + 1

/-- Rounding of an exact result to `float64`, to nearest with ties to even:
`e` is the exponent of the binade of `q` (at least -1022, where the subnormal
numbers begin), a unit in the last place is `2 ^ (e - 52)`, and a result of
magnitude `2 ^ 1024` or more is an infinity. -/
def roundToF64 (q : ℚ) : F64 :=
  if |((roundHalfEven (q / 2 ^ (max (Int.log 2 |q|) (-1022) - 52)) : Int) : ℚ)
        * 2 ^ (max (Int.log 2 |q|) (-1022) - 52)| ≥ 2 ^ 1024
  then F64.inf (decide (q < 0))
  else F64.fin (((roundHalfEven (q / 2 ^ (max (Int.log 2 |q|) (-1022) - 52)) : Int) : ℚ)
        * 2 ^ (max (Int.log 2 |q|) (-1022) - 52))

/-- Go conversion `float64(n)` of an integer. -/
def ofInt (n : Int) : F64 := roundToF64 (n : ℚ)

/-- Operator `+` of `float64`. -/
def add : F64 → F64 → F64
  | F64.fin a, F64.fin b => roundToF64 (a + b)
  | F64.nan, _ => F64.nan
  | _, F64.nan => F64.nan
  | F64.inf s, F64.inf t => if s = t then F64.inf s else F64.nan
  | F64.inf s, F64.fin _ => F64.inf s
  | F64.fin _, F64.inf t => F64.inf t

/-- Operator `-` of `float64`. -/
def sub : F64 → F64 → F64
  | F64.fin a, F64.fin b => roundToF64 (a - b)
  | F64.nan, _ => F64.nan
  | _, F64.nan => F64.nan
  | F64.inf s, F64.inf t => if s = t then F64.nan else F64.inf s
  | F64.inf s, F64.fin _ => F64.inf s
  | F64.fin _, F64.inf t => F64.inf (!t)

/-- Operator `*` of `float64`. -/
def mul : F64 → F64 → F64
  | F64.fin a, F64.fin b => roundToF64 (a * b)
  | F64.nan, _ => F64.nan
  | _, F64.nan => F64.nan
  | F64.inf s, F64.inf t => F64.inf (xor s t)
  | F64.inf s, F64.fin b => if b = 0 then F64.nan else F64.inf (xor s (decide (b < 0)))
  | F64.fin a, F64.inf t => if a = 0 then F64.nan else F64.inf (xor (decide (a < 0)) t)

/-- Operator `/` of `float64`; a zero divisor counts as the positive zero. -/
def div : F64 → F64 → F64
  | F64.fin a, F64.fin b =>
    if b = 0 then (if a = 0 then F64.nan else F64.inf (decide (a < 0))) else roundToF64 (a / b)
  | F64.nan, _ => F64.nan
  | _, F64.nan => F64.nan
  | F64.inf _, F64.inf _ => F64.nan
  | F64.inf s, F64.fin b => F64.inf (xor s (decide (b < 0)))
  | F64.fin _, F64.inf _ => F64.fin 0

/-- Operator `==` of `float64`. -/
def eq : F64 → F64 → Bool
  | F64.fin a, F64.fin b => decide (a = b)
  | F64.inf s, F64.inf t => decide (s = t)
  | _, _ => false

/-- Operator `<` of `float64`; every comparison with a NaN is false. -/
def lt : F64 → F64 → Bool
  | F64.fin a, F64.fin b => decide (a < b)
  | F64.inf s, F64.inf t => s && !t
  | F64.inf s, F64.fin _ => s
  | F64.fin _, F64.inf t => !t
  | _, _ => false

/-- Operator `>` of `float64`. -/
def gt (a b : F64) : Bool := lt b a

/-- Operator `<=` of `float64`. -/
def le (a b : F64) : Bool := lt a b || eq a b

/-- Type `Limit` of limit.go: a `float64`. -/
abbrev Limit := F64

/-- Constant `Inf` of limit.go: `Limit(math.MaxFloat64)`. -/
def Inf : Limit := F64.fin (2 ^ 1024 - 2 ^ 971)

/-- Struct `Limiter` of limit.go, without its mutex. -/
structure Limiter where
  limit : Limit
  burst : Int
  tokens : F64
  last : Time
  deriving DecidableEq

/-- Function `NewLimiter` of limit.go: `tokens` and `last` take their zero values. -/
def NewLimiter (r : Limit) (b : Int) : Limiter :=
  { limit := r, burst := b, tokens := F64.fin 0, last := 0 }

/-- Go `Duration.Minutes`: `float64(min) + float64(nsec)/(60*1e9)` with
`min := d / Minute` and `nsec := d % Minute`. -/
def Minutes (d : Duration) : F64 :=
  add (ofInt (Int.tdiv d Minute)) (div (ofInt (Int.tmod d Minute)) (F64.fin 60000000000))

/-- Method `Limit.tokensFromDuration` of limit.go. -/
def tokensFromDuration (limit : Limit) (d : Duration) : F64 :=
  if le limit (F64.fin 0) then F64.fin 0 else mul (Minutes d) limit

/-- Method `Limiter.advance` of limit.go. -/
def Limiter.advance (lim : Limiter) (t : Time) : Time × F64 :=
  let elapsed := Time.Sub t lim.last
  let delta := tokensFromDuration lim.limit elapsed
  let tokens := add lim.tokens delta
  let tokens := if gt tokens (ofInt lim.burst) then ofInt lim.burst else tokens
  (t, tokens)

/-- Method `Limiter.Allow` of limit.go, called when the clock reads `now`. -/
def Limiter.Allow (lim : Limiter) (now : Time) : Bool × Limiter :=
  if eq lim.limit Inf then (true, lim)
  else if eq lim.limit (F64.fin 0) then
    if lim.burst ≥ 1 then (true, { lim with burst := lim.burst - 1 })
    else (false, lim)
  else
    let (t, tokens) := lim.advance now
    let tokens := sub tokens (ofInt 1)
    if gt tokens (F64.fin 0) then (true, { lim with last := t, tokens := tokens })
    else (false, lim)

/-- Method `Limiter.SetLimit` of limit.go, called when the clock reads `now`. -/
def Limiter.SetLimit (lim : Limiter) (now : Time) (newLimit : Limit) : Limiter :=
  let (t, tokens) := lim.advance now
  { lim with last := t, tokens := tokens, limit := newLimit }

/-- A run of `Allow` calls on one limiter, one call per clock reading, in
order: the decisions and the limiter after the last call. -/
def allowSeq (lim : Limiter) : List Time → List Bool × Limiter
  | [] => ([], lim)
  | t :: ts =>
    let r := lim.Allow t
    let rest := allowSeq r.2 ts
    (r.1 :: rest.1, rest.2)

end IEEE

/-! ## Auxiliary facts about time and refill -/

theorem Minutes_eq (d : Duration) : Duration.Minutes d = (d : ℚ) / 60000000000 := by
  unfold Duration.Minutes Minute
  have h := Int.tdiv_add_tmod d (60 * 1000000000)
  have h2 : (d : ℚ)
      = ((60 * 1000000000 * Int.tdiv d (60 * 1000000000)
          + Int.tmod d (60 * 1000000000) : Int) : ℚ) := by
    rw [h]
  rw [h2]
  push_cast
  ring

theorem Inf_pos : (0 : ℚ) < Inf := by
  unfold Inf; norm_num

theorem Sub_self (t : Time) : Time.Sub t t = 0 := by
  simp [Time.Sub, maxDuration, minDuration]

theorem Sub_nonneg {t u : Int} (h : u ≤ t) : (0 : Int) ≤ Time.Sub t u := by
  unfold Time.Sub
  split_ifs with h1 h2
  · norm_num [maxDuration]
  · simp only [minDuration] at h2
    change t - u < -(2 ^ 63 : Int) at h2
    omega
  · change (0 : Int) ≤ t - u
    omega

theorem Sub_le {t u : Int} (h : u ≤ t) : (Time.Sub t u : Int) ≤ t - u := by
  unfold Time.Sub
  split_ifs with h1 h2
  · exact le_of_lt h1
  · simp only [minDuration] at h2
    change t - u < -(2 ^ 63 : Int) at h2
    omega
  · exact le_refl _

theorem advance_fst (lim : Limiter) (t : Time) : (lim.advance t).1 = t := rfl

theorem advance_snd (lim : Limiter) (t : Time) :
    (lim.advance t).2
      = min (lim.burst : ℚ) (lim.tokens + tokensFromDuration lim.limit (Time.Sub t lim.last)) := by
  simp only [Limiter.advance]
  split_ifs with h
  · exact (min_eq_left (le_of_lt h)).symm
  · exact (min_eq_right (not_lt.mp h)).symm

theorem advance_snd_le_burst (lim : Limiter) (t : Time) :
    (lim.advance t).2 ≤ (lim.burst : ℚ) := by
  rw [advance_snd]; exact min_le_left _ _

theorem Allow_general_eq (lim : Limiter) (now : Time) (hInf : lim.limit ≠ Inf)
    (h0 : lim.limit ≠ 0) :
    lim.Allow now
      = if (lim.advance now).2 - 1 > 0
        then (true, { lim with last := now, tokens := (lim.advance now).2 - 1 })
        else (false, lim) := by
  simp only [Limiter.Allow, if_neg hInf, if_neg h0]
  rfl

theorem tokensFromDuration_pos (limit : Limit) (d : Duration) (h : 0 < limit) :
    tokensFromDuration limit d = (d : ℚ) / 60000000000 * limit := by
  rw [tokensFromDuration, if_neg (not_le.mpr h), Minutes_eq]

theorem Allow_pos_eq (lim : Limiter) (now : Time) (hpos : 0 < lim.limit)
    (hfin : lim.limit ≠ Inf) :
    lim.Allow now
      = if min (lim.burst : ℚ)
            (lim.tokens + ((Time.Sub now lim.last : Int) : ℚ) / 60000000000 * lim.limit) - 1 > 0
        then (true,
          { limit := lim.limit, burst := lim.burst,
            tokens := min (lim.burst : ℚ)
              (lim.tokens + ((Time.Sub now lim.last : Int) : ℚ) / 60000000000 * lim.limit) - 1,
            last := now })
        else (false, lim) := by
  have e := Allow_general_eq lim now hfin (ne_of_gt hpos)
  rw [advance_snd, tokensFromDuration_pos lim.limit _ hpos] at e
  exact e

theorem Allow_Inf_eq (lim : Limiter) (now : Time) (h : lim.limit = Inf) :
    lim.Allow now = (true, lim) := by
  simp [Limiter.Allow, h]

theorem Allow_zero_eq (lim : Limiter) (now : Time) (h : lim.limit = 0) :
    lim.Allow now
      = if lim.burst ≥ 1 then (true, { lim with burst := lim.burst - 1 }) else (false, lim) := by
  have hInf : lim.limit ≠ Inf := by
    rw [h]; exact ne_of_lt Inf_pos
  simp only [Limiter.Allow, if_neg hInf, if_pos h]

theorem Allow_denied_eq (lim : Limiter) (now : Time) (h : (lim.Allow now).1 = false) :
    (lim.Allow now).2 = lim := by
  by_cases hInf : lim.limit = Inf
  · rw [Allow_Inf_eq lim now hInf]
  · by_cases h0 : lim.limit = 0
    · rw [Allow_zero_eq lim now h0] at h ⊢
      split_ifs at h ⊢ with hb
      rfl
    · rw [Allow_general_eq lim now hInf h0] at h ⊢
      split_ifs at h ⊢ with hb
      rfl

/-! ## C1: a full bucket of N tokens and N+1 calls -/

/-- C1, evaluated on the code: the first call on a fresh `NewLimiter(1, 1)` is
denied, and so is the first call on a limiter of rate 1 and burst 1 that holds
its one token; a limiter of rate 1 and burst 2 that holds two tokens (the state
set up in `TestLimiterAllow`) answers three calls made at the same clock
reading with admit, deny, deny.  The N-th call of a full bucket is not admitted
when no time passes, since `Allow` tests `tokens > 0` after the withdrawal. -/
theorem full_bucket_last_token_denied :
    ((NewLimiter 1 1).Allow 63800000000000000000).1 = false ∧
    (Limiter.Allow { limit := 1, burst := 1, tokens := 1, last := 63800000000000000000 }
        63800000000060000000).1 = false ∧
    (allowSeq { limit := 1, burst := 2, tokens := 2, last := 0 }
        [63800000000000000000, 63800000000000000000, 63800000000000000000]).1
      = [true, false, false] := by
  refine ⟨?_, ?_, ?_⟩
  · norm_num [NewLimiter, Limiter.Allow, Limiter.advance, tokensFromDuration, Minutes_eq,
      Time.Sub, Inf, maxDuration, minDuration]
  · norm_num [Limiter.Allow, Limiter.advance, tokensFromDuration, Minutes_eq, Time.Sub, Inf,
      maxDuration, minDuration]
  · norm_num [allowSeq, Limiter.Allow, Limiter.advance, tokensFromDuration, Minutes_eq,
      Time.Sub, Inf, maxDuration, minDuration]

/-! ## C2: a denied call changes nothing -/

/-- C2: when `Allow` reports false, the limiter afterwards is the limiter before
(rate, burst, tokens and last all unchanged), so an `Allow` at any time `t`
after the denied call gives the decision and the state it gives without it. -/
theorem Allow_denied_no_effect (lim : Limiter) (now : Time)
    (h : (lim.Allow now).1 = false) :
    (lim.Allow now).2.limit = lim.limit ∧ (lim.Allow now).2.burst = lim.burst ∧
    (lim.Allow now).2.tokens = lim.tokens ∧ (lim.Allow now).2.last = lim.last ∧
    ∀ t : Time, (lim.Allow now).2.Allow t = lim.Allow t := by
  have e := Allow_denied_eq lim now h
  rw [e]
  exact ⟨rfl, rfl, rfl, rfl, fun _ => rfl⟩

theorem Allow_denied_no_effect_witness :
    (Limiter.Allow { limit := 1, burst := 2, tokens := 1, last := 100 } 100).1 = false ∧
    (Limiter.Allow (Limiter.Allow { limit := 1, burst := 2, tokens := 1, last := 100 } 100).2
        60000000100)
      = Limiter.Allow { limit := 1, burst := 2, tokens := 1, last := 100 } 60000000100 :=
  have h : (Limiter.Allow { limit := 1, burst := 2, tokens := 1, last := 100 } 100).1 = false := by
    norm_num [Limiter.Allow, Limiter.advance, tokensFromDuration, Minutes_eq, Time.Sub, Inf,
      maxDuration, minDuration]
  ⟨h, (Allow_denied_no_effect _ 100 h).2.2.2.2 60000000100⟩

/-! ## C3: the number of admitted calls -/

theorem admittedTimes_length (ts : List Time) :
    ∀ lim : Limiter, (admittedTimes lim ts).length = (allowSeq lim ts).1.count true := by
  induction ts with
  | nil => intro lim; rfl
  | cons t ts ih =>
    intro lim
    simp only [admittedTimes, allowSeq]
    cases h : (lim.Allow t).1
    · simp [ih]
    · simp [ih]

theorem admittedTimes_mem (ts : List Time) :
    ∀ lim : Limiter, ∀ x ∈ admittedTimes lim ts, x ∈ ts := by
  induction ts with
  | nil => intro lim x hx; simp [admittedTimes] at hx
  | cons t ts ih =>
    intro lim x hx
    simp only [admittedTimes] at hx
    split_ifs at hx with h
    · rcases List.mem_cons.mp hx with hx | hx
      · rw [hx]; exact List.mem_cons_self _ _
      · exact List.mem_cons_of_mem _ (ih _ x hx)
    · exact List.mem_cons_of_mem _ (ih _ x hx)

theorem allowSeq_of_no_admitted (ts : List Time) :
    ∀ lim : Limiter, admittedTimes lim ts = [] → (allowSeq lim ts).2 = lim := by
  induction ts with
  | nil => intro lim _; rfl
  | cons t ts ih =>
    intro lim h
    simp only [admittedTimes] at h
    split_ifs at h with hc
    have hf : (lim.Allow t).1 = false := by simpa using hc
    have e := Allow_denied_eq lim t hf
    rw [e] at h
    simp only [allowSeq, e]
    exact ih lim h

/-- One admitted call in the general case: what the limiter holds afterwards. -/
theorem Allow_admitted_step (lim : Limiter) (t : Time) (hpos : 0 < lim.limit)
    (hfin : lim.limit ≠ Inf) (hok : (lim.Allow t).1 = true) :
    (lim.Allow t).2.limit = lim.limit ∧ (lim.Allow t).2.burst = lim.burst ∧
    (lim.Allow t).2.last = t ∧ 0 < (lim.Allow t).2.tokens ∧
    (lim.Allow t).2.tokens + 1 ≤ (lim.burst : ℚ) ∧
    (lim.last ≤ t →
      (lim.Allow t).2.tokens + 1
        ≤ lim.tokens + lim.limit * (((t - lim.last : Int) : ℚ) / 60000000000)) := by
  rw [Allow_pos_eq lim t hpos hfin] at hok ⊢
  split_ifs at hok ⊢ with hgt
  refine ⟨rfl, rfl, rfl, hgt, ?_, ?_⟩
  · have := min_le_left (lim.burst : ℚ)
      (lim.tokens + ((Time.Sub t lim.last : Int) : ℚ) / 60000000000 * lim.limit)
    simp only
    linarith
  · intro hle
    have h1 := min_le_right (lim.burst : ℚ)
      (lim.tokens + ((Time.Sub t lim.last : Int) : ℚ) / 60000000000 * lim.limit)
    have h2 : ((Time.Sub t lim.last : Int) : ℚ) ≤ ((t - lim.last : Int) : ℚ) := by
      exact_mod_cast Sub_le hle
    have h3 : ((Time.Sub t lim.last : Int) : ℚ) / 60000000000 * lim.limit
        ≤ lim.limit * (((t - lim.last : Int) : ℚ) / 60000000000) := by
      rw [mul_comm]
      apply mul_le_mul_of_nonneg_left _ (le_of_lt hpos)
      apply div_le_div_of_nonneg_right h2
      norm_num
    simp only
    linarith

/-- A run in the general case that starts no earlier than `last`: the tokens
left after it, plus one per admitted call, are at most the tokens at the start
plus the accrual up to the last admitted call. -/
theorem run_tokens_bound (ts : List Time) :
    ∀ lim : Limiter, 0 < lim.limit → lim.limit ≠ Inf → ts.Pairwise (fun a b => a ≤ b) →
      (∀ t ∈ ts, lim.last ≤ t) →
      ∀ z : Time, (admittedTimes lim ts).getLast? = some z →
        0 < (allowSeq lim ts).2.tokens ∧
        (allowSeq lim ts).2.tokens + ((admittedTimes lim ts).length : ℚ)
          ≤ lim.tokens + lim.limit * (((z - lim.last : Int) : ℚ) / 60000000000) := by
  induction ts with
  | nil =>
    intro lim _ _ _ _ z hz
    simp [admittedTimes] at hz
  | cons t ts ih =>
    intro lim hpos hfin hsorted hlast z hz
    have hs := List.pairwise_cons.mp hsorted
    have hlt : lim.last ≤ t := hlast t (List.mem_cons_self _ _)
    cases hc : (lim.Allow t).1
    · have e := Allow_denied_eq lim t hc
      simp only [admittedTimes, allowSeq, hc, e] at hz ⊢
      exact ih lim hpos hfin hs.2 (fun x hx => hlast x (List.mem_cons_of_mem _ hx)) z hz
    · obtain ⟨hl, hb, hla, htp, _, hacc⟩ := Allow_admitted_step lim t hpos hfin hc
      have hacc := hacc hlt
      simp only [admittedTimes, allowSeq, hc, if_true, List.length_cons] at hz ⊢
      cases hl' : admittedTimes (lim.Allow t).2 ts with
      | nil =>
        rw [hl'] at hz
        simp only [List.getLast?_singleton, Option.some.injEq] at hz
        rw [allowSeq_of_no_admitted ts _ hl', ← hz]
        refine ⟨htp, ?_⟩
        simp only [List.length_nil, Nat.cast_zero, zero_add, Nat.cast_one]
        exact hacc
      | cons a l =>
        rw [hl'] at hz
        rw [List.getLast?_cons_cons] at hz
        have hpos1 : 0 < (lim.Allow t).2.limit := by rw [hl]; exact hpos
        have hfin1 : (lim.Allow t).2.limit ≠ Inf := by rw [hl]; exact hfin
        have hlast1 : ∀ x ∈ ts, (lim.Allow t).2.last ≤ x := by
          intro x hx; rw [hla]; exact hs.1 x hx
        have hz1 : (admittedTimes (lim.Allow t).2 ts).getLast? = some z := by rw [hl']; exact hz
        obtain ⟨hp, hbd⟩ := ih (lim.Allow t).2 hpos1 hfin1 hs.2 hlast1 z hz1
        refine ⟨hp, ?_⟩
        rw [hl'] at hbd
        rw [hl, hla] at hbd
        have hsplit : lim.limit * (((z - lim.last : Int) : ℚ) / 60000000000)
            = lim.limit * (((t - lim.last : Int) : ℚ) / 60000000000)
              + lim.limit * (((z - t : Int) : ℚ) / 60000000000) := by
          push_cast; ring
        rw [hsplit]
        push_cast at hacc hbd ⊢
        linarith

theorem admitted_bound_aux (ts : List Time) :
    ∀ lim : Limiter, 0 < lim.limit → lim.limit ≠ Inf → ts.Pairwise (fun a b => a ≤ b) →
      ∀ a z : Time, (admittedTimes lim ts).head? = some a →
        (admittedTimes lim ts).getLast? = some z →
        ((admittedTimes lim ts).length : ℚ)
          < (lim.burst : ℚ) + lim.limit * (((z - a : Int) : ℚ) / 60000000000) := by
  induction ts with
  | nil =>
    intro lim _ _ _ a z ha _
    simp [admittedTimes] at ha
  | cons t ts ih =>
    intro lim hpos hfin hsorted a z ha hz
    have hs := List.pairwise_cons.mp hsorted
    cases hc : (lim.Allow t).1
    · have e := Allow_denied_eq lim t hc
      simp only [admittedTimes, hc, e] at ha hz ⊢
      exact ih lim hpos hfin hs.2 a z ha hz
    · obtain ⟨hl, hb, hla, htp, hcap, _⟩ := Allow_admitted_step lim t hpos hfin hc
      simp only [admittedTimes, hc, if_true, List.length_cons, List.head?_cons,
        Option.some.injEq] at ha hz ⊢
      subst ha
      cases hl' : admittedTimes (lim.Allow t).2 ts with
      | nil =>
        rw [hl'] at hz
        simp only [List.getLast?_singleton, Option.some.injEq] at hz
        subst hz
        simp only [List.length_nil, Nat.cast_zero, zero_add, Nat.cast_one, sub_self,
          Int.cast_zero, zero_div, mul_zero, add_zero]
        linarith
      | cons b l =>
        rw [hl'] at hz
        rw [List.getLast?_cons_cons] at hz
        have hpos1 : 0 < (lim.Allow t).2.limit := by rw [hl]; exact hpos
        have hfin1 : (lim.Allow t).2.limit ≠ Inf := by rw [hl]; exact hfin
        have hlast1 : ∀ x ∈ ts, (lim.Allow t).2.last ≤ x := by
          intro x hx; rw [hla]; exact hs.1 x hx
        have hz1 : (admittedTimes (lim.Allow t).2 ts).getLast? = some z := by rw [hl']; exact hz
        obtain ⟨hp, hbd⟩ := run_tokens_bound ts (lim.Allow t).2 hpos1 hfin1 hs.2 hlast1 z hz1
        rw [hl'] at hbd
        rw [hl, hla] at hbd
        push_cast at hbd ⊢
        linarith

/-- C3 as amended: over exact arithmetic (rationals in place of `float64`), in a
run of `Allow` calls at non-decreasing clock readings on a limiter of positive
rate `r` other than `Inf` and burst `b`, from any state, let `m` be the number
of admitted calls.  When some call is admitted, with `a` and `z` the
readings of the first and the last admitted call, `m < b + r * T` for `T` the
`z - a` nanoseconds in minutes.  When all calls are made at the same reading,
at most `b` calls are admitted (none when `b` is not positive), however many
are made. -/
theorem admitted_count_bound (lim : Limiter) (ts : List Time) (hpos : 0 < lim.limit)
    (hfin : lim.limit ≠ Inf) (hsorted : ts.Pairwise (fun a b => a ≤ b)) :
    (∀ a z : Time, (admittedTimes lim ts).head? = some a →
      (admittedTimes lim ts).getLast? = some z →
      (((allowSeq lim ts).1.count true : Nat) : ℚ)
        < (lim.burst : ℚ) + lim.limit * (((z - a : Int) : ℚ) / 60000000000)) ∧
    ((∀ t ∈ ts, ∀ u ∈ ts, t = u) →
      (((allowSeq lim ts).1.count true : Nat) : Int) ≤ max lim.burst 0) := by
  rw [← admittedTimes_length]
  refine ⟨admitted_bound_aux ts lim hpos hfin hsorted, fun hsame => ?_⟩
  cases hl : admittedTimes lim ts with
  | nil => simp
  | cons a l =>
    have ha : (admittedTimes lim ts).head? = some a := by rw [hl]; rfl
    obtain ⟨z, hz⟩ : ∃ z, (admittedTimes lim ts).getLast? = some z := by
      rw [hl]
      exact ⟨(a :: l).getLast (List.cons_ne_nil a l), List.getLast?_eq_getLast _ _⟩
    have ham : a ∈ ts := admittedTimes_mem ts lim a (by rw [hl]; exact List.mem_cons_self _ _)
    have hzm : z ∈ ts :=
      admittedTimes_mem ts lim z (List.mem_of_getLast?_eq_some hz)
    have hza : z = a := hsame z hzm a ham
    have hb := admitted_bound_aux ts lim hpos hfin hsorted a z ha hz
    rw [hza, hl] at hb
    simp only [sub_self, Int.cast_zero, zero_div, mul_zero, add_zero] at hb
    apply le_max_of_le_left
    have : (((a :: l).length : Int) : ℚ) < ((lim.burst : Int) : ℚ) := by exact_mod_cast hb
    have h2 : ((a :: l).length : Int) < lim.burst := by exact_mod_cast this
    exact le_of_lt h2

theorem admitted_count_bound_witness :
    (((allowSeq { limit := 60, burst := 3, tokens := 3, last := 0 }
        [0, 0, 0, 1000000000]).1.count true : Nat) : ℚ)
      < ((3 : Int) : ℚ) + 60 * (((1000000000 - 0 : Int) : ℚ) / 60000000000) :=
  (admitted_count_bound { limit := 60, burst := 3, tokens := 3, last := 0 }
    [0, 0, 0, 1000000000] (by norm_num) (by norm_num [Inf]) (by decide)).1 0 1000000000
    (by norm_num [admittedTimes, Limiter.Allow, Limiter.advance, tokensFromDuration,
      Minutes_eq, Time.Sub, Inf, maxDuration, minDuration])
    (by norm_num [admittedTimes, Limiter.Allow, Limiter.advance, tokensFromDuration,
      Minutes_eq, Time.Sub, Inf, maxDuration, minDuration])

/-! ## C4: the unlimited rate -/

theorem allowSeq_Inf (lim : Limiter) (h : lim.limit = Inf) (ts : List Time) :
    allowSeq lim ts = (List.replicate ts.length true, lim) := by
  induction ts with
  | nil => rfl
  | cons t ts ih =>
    simp only [allowSeq, Allow_Inf_eq lim t h, ih, List.length_cons, List.replicate_succ]

/-- C4: a limiter whose rate is `Inf` admits at every clock reading, whatever its
burst and tokens, and `Allow` leaves it as it was; so every call of a run of
any length is admitted. -/
theorem Allow_unlimited (lim : Limiter) (now : Time) (h : lim.limit = Inf) :
    (lim.Allow now).1 = true ∧ (lim.Allow now).2 = lim ∧
    ∀ ts : List Time,
      (allowSeq lim ts).1 = List.replicate ts.length true ∧ (allowSeq lim ts).2 = lim := by
  refine ⟨?_, ?_, fun ts => ?_⟩
  · rw [Allow_Inf_eq lim now h]
  · rw [Allow_Inf_eq lim now h]
  · rw [allowSeq_Inf lim h ts]
    exact ⟨rfl, rfl⟩

theorem Allow_unlimited_witness :
    (Limiter.Allow { limit := Inf, burst := -3, tokens := -7, last := 5 } 2).1 = true ∧
    (allowSeq { limit := Inf, burst := 0, tokens := 0, last := 0 } [9, 9, 4, 11]).1
      = [true, true, true, true] :=
  ⟨(Allow_unlimited { limit := Inf, burst := -3, tokens := -7, last := 5 } 2 rfl).1,
   ((Allow_unlimited { limit := Inf, burst := 0, tokens := 0, last := 0 } 0 rfl).2.2
      [9, 9, 4, 11]).1⟩

/-! ## C5: rate zero -/

theorem allowSeq_zero (ts : List Time) :
    ∀ lim : Limiter, lim.limit = 0 → 0 ≤ lim.burst →
      (allowSeq lim ts).1
        = (List.range ts.length).map (fun i : Nat => decide ((i : Int) < lim.burst)) := by
  induction ts with
  | nil => intro lim _ _; rfl
  | cons t ts ih =>
    intro lim h0 hb
    rw [List.length_cons, List.range_succ_eq_map, List.map_cons, List.map_map]
    simp only [allowSeq, Allow_zero_eq lim t h0]
    by_cases h1 : lim.burst ≥ 1
    · rw [if_pos h1]
      have hb1 : (0 : Int) ≤ lim.burst - 1 := by omega
      rw [ih { lim with burst := lim.burst - 1 } h0 hb1]
      have hd : decide (((0 : Nat) : Int) < lim.burst) = true := by
        apply decide_eq_true
        have : ((0 : Nat) : Int) = 0 := rfl
        omega
      rw [hd]
      congr 1
      apply List.map_congr_left
      intro i _
      simp only [Function.comp, Nat.cast_succ]
      apply decide_eq_decide.mpr
      constructor <;> intro hi <;> omega
    · rw [if_neg h1]
      rw [ih lim h0 hb]
      have hz : lim.burst = 0 := by omega
      have hd : decide (((0 : Nat) : Int) < lim.burst) = false := by
        apply decide_eq_false
        rw [hz]
        exact lt_irrefl _
      rw [hd]
      congr 1
      apply List.map_congr_left
      intro i _
      simp only [Function.comp, Nat.cast_succ]
      apply decide_eq_decide.mpr
      constructor <;> intro hi <;> omega

/-- C5: on `NewLimiter(0, b)` with `b >= 0`, a run of `Allow` calls at any clock
readings gives one decision per call, and the call at position `i` (counted
from 0) is admitted exactly when `i < b`: the first `b` calls are admitted and
every later one is denied, whatever the times. -/
theorem zero_rate_admits_first_burst (b : Int) (hb : 0 ≤ b) (ts : List Time) :
    (allowSeq (NewLimiter 0 b) ts).1
      = (List.range ts.length).map (fun i : Nat => decide ((i : Int) < b)) :=
  allowSeq_zero ts (NewLimiter 0 b) rfl hb

theorem zero_rate_admits_first_burst_witness :
    (allowSeq (NewLimiter 0 2) [50, 7, 900000000000000, 900000000000001]).1
      = [true, true, false, false] :=
  zero_rate_admits_first_burst 2 (by decide) [50, 7, 900000000000000, 900000000000001]

/-! ## C6: the general case of Allow -/

/-- C6 as amended: over exact arithmetic (rationals in place of `float64`), for a
rate that is positive and not `Inf`, with `elapsed = now.Sub(last)`, which is
`now - last` capped to the range of a `Duration`, and
`refilled = min(burst, tokens + elapsed in minutes * rate)`, `Allow` reports
true exactly when `refilled - 1 > 0`, and then the limiter afterwards
has `tokens = refilled - 1` and `last = now` with rate and burst as before. -/
theorem Allow_general (lim : Limiter) (now : Time) (hpos : 0 < lim.limit)
    (hfin : lim.limit ≠ Inf) :
    ((lim.Allow now).1 = true ↔
      min (lim.burst : ℚ)
        (lim.tokens + ((Time.Sub now lim.last : Int) : ℚ) / 60000000000 * lim.limit) - 1 > 0) ∧
    ((lim.Allow now).1 = true →
      (lim.Allow now).2
        = { limit := lim.limit, burst := lim.burst,
            tokens := min (lim.burst : ℚ)
              (lim.tokens + ((Time.Sub now lim.last : Int) : ℚ) / 60000000000 * lim.limit) - 1,
            last := now }) := by
  rw [Allow_pos_eq lim now hpos hfin]
  constructor
  · constructor
    · intro h
      by_contra hn
      rw [if_neg hn] at h
      exact Bool.false_ne_true h
    · intro h
      rw [if_pos h]
  · intro h
    split_ifs at h ⊢ with hc
    rfl

theorem Allow_general_witness :
    (Limiter.Allow { limit := 5, burst := 5, tokens := 1, last := 0 } 30000000000).1 = true ∧
    (Limiter.Allow { limit := 5, burst := 5, tokens := 1, last := 0 } 30000000000).2
      = { limit := 5, burst := 5, tokens := 5 / 2, last := 30000000000 } := by
  have hpos : (0 : ℚ) < (5 : ℚ) := by norm_num
  have hfin : (5 : ℚ) ≠ Inf := by norm_num [Inf]
  have key := Allow_general { limit := 5, burst := 5, tokens := 1, last := 0 } 30000000000
    hpos hfin
  have hs : Time.Sub 30000000000 0 = 30000000000 := by
    norm_num [Time.Sub, maxDuration, minDuration]
  simp only [hs] at key
  have hv : min ((5 : Int) : ℚ) (1 + ((30000000000 : Int) : ℚ) / 60000000000 * 5) - 1
      = 5 / 2 := by
    norm_num
  rw [hv] at key
  have ht := key.1.mpr (by norm_num)
  exact ⟨ht, key.2 ht⟩

/-! ## C7 and C8: reconfiguration -/

theorem SetLimit_eq (lim : Limiter) (now : Time) (newLimit : Limit) :
    lim.SetLimit now newLimit
      = { limit := newLimit, burst := lim.burst, tokens := (lim.advance now).2, last := now } :=
  rfl

theorem SetBurst_eq (lim : Limiter) (now : Time) (newBurst : Int) :
    lim.SetBurst now newBurst
      = { limit := lim.limit, burst := newBurst, tokens := (lim.advance now).2, last := now } :=
  rfl

/-- C7 fails as stated: a limiter of burst 5 that holds 5 tokens still holds 5
tokens after `SetBurst(2)`, which is above the new burst. -/
theorem SetBurst_down_tokens_above_new_burst :
    (2 : Int) < (5 : Int) ∧
    ¬ ((Limiter.SetBurst { limit := 1, burst := 5, tokens := 5, last := 63800000000000000000 }
          63800000000000000000 2).tokens ≤ ((2 : Int) : ℚ)) := by
  constructor
  · decide
  · rw [SetBurst_eq, advance_snd, Sub_self]
    norm_num [tokensFromDuration, Minutes_eq]

/-- C7 as amended: after `SetBurst(newBurst)` the stored tokens are the refill
computed under the old burst, hence at most the OLD burst, and the burst is
`newBurst`; the clamp to the new burst happens at the next refill: the token
value `advance` computes from the new state is at most `newBurst`, at every
clock reading. -/
theorem SetBurst_tokens_bound (lim : Limiter) (now : Time) (newBurst : Int) :
    (lim.SetBurst now newBurst).tokens ≤ (lim.burst : ℚ) ∧
    (lim.SetBurst now newBurst).burst = newBurst ∧
    ∀ t : Time, ((lim.SetBurst now newBurst).advance t).2 ≤ (newBurst : ℚ) := by
  refine ⟨?_, rfl, fun t => ?_⟩
  · rw [SetBurst_eq]
    exact advance_snd_le_burst lim now
  · exact advance_snd_le_burst (lim.SetBurst now newBurst) t

/-- C8 fails as stated: with the negative rate -1, no tokens, burst 5 and one
minute elapsed, `SetLimit` stores 0 tokens, not `min(5, 0 + 1 * (-1)) = -1`:
`tokensFromDuration` yields 0 for a rate that is not positive. -/
theorem SetLimit_negative_rate_no_accrual :
    Time.Sub 60000000000 0 = 60000000000 ∧
    (Limiter.SetLimit { limit := -1, burst := 5, tokens := 0, last := 0 } 60000000000 2).tokens
      = 0 ∧
    ¬ ((Limiter.SetLimit { limit := -1, burst := 5, tokens := 0, last := 0 } 60000000000 2).tokens
      = min ((5 : Int) : ℚ)
          (0 + ((Time.Sub 60000000000 0 : Int) : ℚ) / 60000000000 * (-1))) := by
  have hs : Time.Sub 60000000000 0 = 60000000000 := by
    norm_num [Time.Sub, maxDuration, minDuration]
  refine ⟨hs, ?_, ?_⟩
  · rw [SetLimit_eq, advance_snd]
    norm_num [tokensFromDuration]
  · rw [SetLimit_eq, advance_snd, hs]
    norm_num [tokensFromDuration]

/-- C8 as amended: with `elapsed = now.Sub(last)` and `accrual` equal to
`elapsed in minutes * oldRate` when `oldRate > 0` and to 0 when `oldRate <= 0`,
`SetLimit(newRate)` leaves `tokens = min(oldBurst, oldTokens + accrual)`,
`last = now`, `rate = newRate` and the burst unchanged, and `SetBurst(newBurst)`
leaves the same tokens and last, `burst = newBurst` and the rate unchanged. -/
theorem SetLimit_SetBurst_state (lim : Limiter) (now : Time) (newLimit : Limit)
    (newBurst : Int) :
    lim.SetLimit now newLimit
      = { limit := newLimit, burst := lim.burst,
          tokens := min (lim.burst : ℚ)
            (lim.tokens + (if lim.limit ≤ 0 then 0
              else ((Time.Sub now lim.last : Int) : ℚ) / 60000000000 * lim.limit)),
          last := now } ∧
    lim.SetBurst now newBurst
      = { limit := lim.limit, burst := newBurst,
          tokens := min (lim.burst : ℚ)
            (lim.tokens + (if lim.limit ≤ 0 then 0
              else ((Time.Sub now lim.last : Int) : ℚ) / 60000000000 * lim.limit)),
          last := now } := by
  have ht : tokensFromDuration lim.limit (Time.Sub now lim.last)
      = (if lim.limit ≤ 0 then 0
          else ((Time.Sub now lim.last : Int) : ℚ) / 60000000000 * lim.limit) := by
    rw [tokensFromDuration, Minutes_eq]
  rw [SetLimit_eq, SetBurst_eq, advance_snd, ht]
  exact ⟨rfl, rfl⟩

/-! ## C9: an admitted call at rate zero -/

/-- C9 fails as stated: at rate 0, a limiter of burst 1 that holds 1 token is
admitted, and afterwards its tokens are still 1 while its burst is 0. -/
theorem Allow_zero_rate_keeps_tokens :
    (Limiter.Allow { limit := 0, burst := 1, tokens := 1, last := 0 } 7).1 = true ∧
    ¬ ((Limiter.Allow { limit := 0, burst := 1, tokens := 1, last := 0 } 7).2.tokens = 1 - 1 ∧
       (Limiter.Allow { limit := 0, burst := 1, tokens := 1, last := 0 } 7).2.burst = 1) := by
  rw [Allow_zero_eq _ 7 rfl]
  norm_num

/-- C9 as amended: at rate 0 an `Allow` call that admits takes its token from the
burst: it lowers `burst` by exactly 1 and leaves `tokens`, `last` and the rate
unchanged. -/
theorem Allow_zero_rate_takes_burst (lim : Limiter) (now : Time) (h0 : lim.limit = 0)
    (hok : (lim.Allow now).1 = true) :
    (lim.Allow now).2.burst = lim.burst - 1 ∧ (lim.Allow now).2.tokens = lim.tokens ∧
    (lim.Allow now).2.last = lim.last ∧ (lim.Allow now).2.limit = lim.limit := by
  rw [Allow_zero_eq lim now h0] at hok ⊢
  split_ifs at hok ⊢ with hb
  exact ⟨rfl, rfl, rfl, rfl⟩

theorem Allow_zero_rate_takes_burst_witness :
    (Limiter.Allow { limit := 0, burst := 3, tokens := 3, last := 0 } 7).2.burst = 3 - 1 ∧
    (Limiter.Allow { limit := 0, burst := 3, tokens := 3, last := 0 } 7).2.tokens = 3 :=
  have hok : (Limiter.Allow { limit := 0, burst := 3, tokens := 3, last := 0 } 7).1 = true := by
    rw [Allow_zero_eq _ 7 rfl]
    norm_num
  ⟨(Allow_zero_rate_takes_burst _ 7 rfl hok).1, (Allow_zero_rate_takes_burst _ 7 rfl hok).2.1⟩

/-! ## C10: the admission check on the map of clients -/

/-- C10: an admission check for `id` with defaults `incommming`, whose clock
readings are `seen` (stored in `lastSeen`) and `now` (read by `Allow`).  When
`id` is not in the map, its new entry holds the limiter `NewLimiter(limit,
brust)` after its `Allow` call at `now`, and the decision is the result of that
call; when `id` is in the map with client `c`, the entry holds the limiter of
`c` after its `Allow` call at `now`, the decision is the result of that call,
and the defaults play no part.  In both cases `lastSeen` becomes `seen`. -/
theorem PerClientRateLimiter_check (incommming : IncommingLimit) (clients : Clients)
    (id : String) (seen now : Time) :
    (clients id = none →
      (PerClientRateLimiter incommming clients id seen now).1
        = ((NewLimiter incommming.limit incommming.brust).Allow now).1 ∧
      (PerClientRateLimiter incommming clients id seen now).2 id
        = some { limiter := ((NewLimiter incommming.limit incommming.brust).Allow now).2,
                 lastSeen := seen }) ∧
    (∀ c : client, clients id = some c →
      (PerClientRateLimiter incommming clients id seen now).1 = (c.limiter.Allow now).1 ∧
      (PerClientRateLimiter incommming clients id seen now).2 id
        = some { limiter := (c.limiter.Allow now).2, lastSeen := seen } ∧
      ∀ other : IncommingLimit,
        PerClientRateLimiter other clients id seen now
          = PerClientRateLimiter incommming clients id seen now) := by
  constructor
  · intro h
    simp [PerClientRateLimiter, h]
  · intro c h
    simp [PerClientRateLimiter, h]

theorem PerClientRateLimiter_check_witness :
    (PerClientRateLimiter { limit := 0, brust := 1 } (fun _ => none) "/user/1/data" 40 41).1
        = ((NewLimiter 0 1).Allow 41).1 ∧
    (PerClientRateLimiter { limit := 5, brust := 5 }
        (Function.update (fun _ => none) "/user/1/data"
          (some { limiter := { limit := 0, burst := 0, tokens := 0, last := 0 }, lastSeen := 3 }))
        "/user/1/data" 40 41).2 "/user/1/data"
      = some { limiter :=
                 (Limiter.Allow { limit := 0, burst := 0, tokens := 0, last := 0 } 41).2,
               lastSeen := 40 } :=
  ⟨((PerClientRateLimiter_check { limit := 0, brust := 1 } (fun _ => none) "/user/1/data"
      40 41).1 rfl).1,
   ((PerClientRateLimiter_check { limit := 5, brust := 5 }
      (Function.update (fun _ => none) "/user/1/data"
        (some { limiter := { limit := 0, burst := 0, tokens := 0, last := 0 }, lastSeen := 3 }))
      "/user/1/data" 40 41).2 _ (Function.update_same _ _ _)).2.1⟩

/-! ## C11: identities do not influence each other -/

theorem Sub_def (t u : Int) :
    (Time.Sub t u : Int)
      = if t - u > 9223372036854775807 then 9223372036854775807
        else if t - u < -9223372036854775808 then -9223372036854775808 else t - u := by
  unfold Time.Sub maxDuration minDuration
  norm_num

theorem Sub_mono {t t' : Int} (u : Int) (h : t ≤ t') :
    (Time.Sub t u : Int) ≤ Time.Sub t' u := by
  rw [Sub_def, Sub_def]
  split_ifs <;> linarith

theorem Sub_gt_three_minutes (t u : Int) :
    (Time.Sub t u : Int) > 3 * Minute ↔ t - u > 180000000000 := by
  rw [Sub_def]
  have hm : (3 * Minute : Int) = 180000000000 := by norm_num [Minute]
  rw [hm]
  split_ifs <;> constructor <;> intro _ <;> linarith

theorem PerClientRateLimiter_other (incommming : IncommingLimit) (clients : Clients)
    (id other : String) (seen now : Time) (h : id ≠ other) :
    (PerClientRateLimiter incommming clients id seen now).2 other = clients other := by
  simp only [PerClientRateLimiter]
  exact Function.update_noteq (Ne.symm h) _ _

theorem PerClientRateLimiter_congr (incommming : IncommingLimit) (clients1 clients2 : Clients)
    (id : String) (seen now : Time) (h : clients1 id = clients2 id) :
    (PerClientRateLimiter incommming clients1 id seen now).1
        = (PerClientRateLimiter incommming clients2 id seen now).1 ∧
    (PerClientRateLimiter incommming clients1 id seen now).2 id
        = (PerClientRateLimiter incommming clients2 id seen now).2 id := by
  simp only [PerClientRateLimiter, h, Function.update_same]
  exact ⟨trivial, trivial⟩

theorem runChecks_other (other : String)
    (checks : List (IncommingLimit × String × Time × Time)) :
    ∀ clients : Clients, (∀ k ∈ checks, k.2.1 ≠ other) →
      runChecks clients checks other = clients other := by
  induction checks with
  | nil => intro clients _; rfl
  | cons k rest ih =>
    intro clients h
    obtain ⟨incommming, id, seen, now⟩ := k
    simp only [runChecks]
    rw [ih _ (fun k hk => h k (List.mem_cons_of_mem _ hk))]
    exact PerClientRateLimiter_other incommming clients id other seen now
      (h _ (List.mem_cons_self _ _))

/-- C11: for distinct identities `A` and `B`, an admission check for `A` leaves the
entry of `B` as it was (the same client, or still no client).  Hence after any
run of checks for identities other than `B`, the entry of `B` is unchanged, and
a check for `B` gives the decision and the new entry of `B` that it gives
without that run. -/
theorem identity_independence (incommming : IncommingLimit) (clients : Clients)
    (A B : String) (seen now : Time) (hAB : A ≠ B) :
    (PerClientRateLimiter incommming clients A seen now).2 B = clients B ∧
    ∀ checks : List (IncommingLimit × String × Time × Time),
      (∀ k ∈ checks, k.2.1 ≠ B) →
      runChecks clients checks B = clients B ∧
      ∀ (incB : IncommingLimit) (seenB nowB : Time),
        (PerClientRateLimiter incB (runChecks clients checks) B seenB nowB).1
          = (PerClientRateLimiter incB clients B seenB nowB).1 ∧
        (PerClientRateLimiter incB (runChecks clients checks) B seenB nowB).2 B
          = (PerClientRateLimiter incB clients B seenB nowB).2 B := by
  refine ⟨PerClientRateLimiter_other incommming clients A B seen now hAB, ?_⟩
  intro checks hchecks
  have hrun := runChecks_other B checks clients hchecks
  exact ⟨hrun, fun incB seenB nowB =>
    PerClientRateLimiter_congr incB (runChecks clients checks) clients B seenB nowB hrun⟩

theorem identity_independence_witness :
    (PerClientRateLimiter { limit := 5, brust := 5 } (fun _ => none) "/user/1/data" 40 41).2
        "/user/2/data" = none ∧
    (PerClientRateLimiter { limit := 2, brust := 3 }
        (runChecks (fun _ => none)
          [({ limit := 5, brust := 5 }, "/user/1/data", 40, 41),
           ({ limit := 5, brust := 5 }, "/user/1/data", 50, 51)])
        "/user/2/data" 60 61).1
      = (PerClientRateLimiter { limit := 2, brust := 3 } (fun _ => none)
          "/user/2/data" 60 61).1 :=
  have h := identity_independence { limit := 5, brust := 5 } (fun _ => none)
    "/user/1/data" "/user/2/data" 40 41 (by decide)
  ⟨h.1, ((h.2 [({ limit := 5, brust := 5 }, "/user/1/data", 40, 41),
      ({ limit := 5, brust := 5 }, "/user/1/data", 50, 51)]
    (by
      intro k hk
      simp only [List.mem_cons, List.mem_singleton, List.not_mem_nil, or_false] at hk
      rcases hk with hk | hk <;> (rw [hk]; decide))).2
    { limit := 2, brust := 3 } 60 61).1⟩

/-! ## C12: one sweep of the clean-up loop -/

/-- C12: one pass of the clean-up loop, with `now id` the clock reading taken at
the entry of `id` (one and the same reading for a sweep at a single time).  An
entry is absent afterwards exactly when it was absent before or its client has
`now - lastSeen > 3` minutes; a client with `now - lastSeen <= 3` minutes, three
minutes exactly included, stays with its limiter and `lastSeen` unchanged; and
every entry present afterwards is the entry that was there before. -/
theorem CleanupClients_sweep (clients : Clients) (now : String → Time) (id : String) :
    (CleanupClients clients now id = none ↔
      clients id = none ∨
      ∃ c : client, clients id = some c ∧ now id - c.lastSeen > 180000000000) ∧
    (∀ c : client, clients id = some c → now id - c.lastSeen ≤ 180000000000 →
      CleanupClients clients now id = some c) ∧
    (∀ c : client, CleanupClients clients now id = some c → clients id = some c) := by
  unfold CleanupClients
  cases hc : clients id with
  | none => simp
  | some c =>
    by_cases hgt : (Time.Sub (now id) c.lastSeen : Int) > 3 * Minute
    · have hd := (Sub_gt_three_minutes (now id) c.lastSeen).mp hgt
      simp only [if_pos hgt]
      refine ⟨⟨fun _ => Or.inr ⟨c, rfl, hd⟩, fun _ => trivial⟩, ?_, ?_⟩
      · intro c' hc' hle
        rw [← Option.some.inj hc'] at hle
        exact absurd hd (not_lt.mpr hle)
      · intro c' h
        exact absurd h (by simp)
    · have hd : ¬ (now id - c.lastSeen > 180000000000) :=
        fun h => hgt ((Sub_gt_three_minutes (now id) c.lastSeen).mpr h)
      simp only [if_neg hgt]
      refine ⟨⟨fun h => absurd h (by simp), fun h => ?_⟩, ?_, ?_⟩
      · rcases h with h | ⟨c', hc', hlt⟩
        · exact absurd h (by simp)
        · rw [← Option.some.inj hc'] at hlt
          exact absurd hlt hd
      · intro c' hc' _
        exact hc'
      · intro c' h
        exact h

theorem CleanupClients_sweep_witness :
    CleanupClients
        (Function.update (fun _ => none) "/user/1/data"
          (some { limiter := NewLimiter 5 5, lastSeen := 1000 }))
        (fun _ => 180000001000) "/user/1/data"
      = some { limiter := NewLimiter 5 5, lastSeen := 1000 } :=
  (CleanupClients_sweep
    (Function.update (fun _ => none) "/user/1/data"
      (some { limiter := NewLimiter 5 5, lastSeen := 1000 }))
    (fun _ => 180000001000) "/user/1/data").2.1 _ (Function.update_same _ _ _) (by decide)

/-! ## C17: unit conversion -/

/-- C17 as amended: over exact arithmetic (rationals in place of `float64`),
`Limit` counts tokens per minute.  For a positive `limit`,
`tokensFromDuration` is `limit` times the duration in minutes (nanoseconds over
`6 * 10^10`), so one minute yields exactly `limit` tokens and the result is
additive and homogeneous in the duration; for `limit <= 0` the result is 0 for
every duration. -/
theorem tokensFromDuration_conversion (limit : Limit) (d : Duration) :
    (0 < limit →
      tokensFromDuration limit d = limit * ((d : ℚ) / 60000000000) ∧
      tokensFromDuration limit Minute = limit ∧
      (∀ d1 d2 : Duration,
        tokensFromDuration limit (d1 + d2)
          = tokensFromDuration limit d1 + tokensFromDuration limit d2) ∧
      (∀ (k : Int) (d1 : Duration),
        tokensFromDuration limit (k * d1) = (k : ℚ) * tokensFromDuration limit d1)) ∧
    (limit ≤ 0 → tokensFromDuration limit d = 0) := by
  constructor
  · intro hpos
    refine ⟨?_, ?_, ?_, ?_⟩
    · rw [tokensFromDuration_pos limit d hpos]; ring
    · rw [tokensFromDuration_pos limit Minute hpos]
      norm_num [Minute]
    · intro d1 d2
      rw [tokensFromDuration_pos limit _ hpos, tokensFromDuration_pos limit _ hpos,
        tokensFromDuration_pos limit _ hpos]
      push_cast
      ring
    · intro k d1
      rw [tokensFromDuration_pos limit _ hpos, tokensFromDuration_pos limit _ hpos]
      push_cast
      ring
  · intro hle
    rw [tokensFromDuration, if_pos hle]

theorem tokensFromDuration_conversion_witness :
    tokensFromDuration 5 Minute = 5 ∧ tokensFromDuration (-2) 90000000000 = 0 :=
  ⟨((tokensFromDuration_conversion 5 0).1 (by norm_num)).2.1,
   (tokensFromDuration_conversion (-2) 90000000000).2 (by norm_num)⟩

/-! ## C19 and C20: the decision as a function of time and burst -/

/-- C19: `Allow` is monotone in the clock reading: for `t <= t2`, when `Allow` at
`t` admits, `Allow` at `t2` from the same state admits.  This holds for every
rate (so for every rate `>= 0`) and wherever the readings lie relative to
`last`. -/
theorem Allow_monotone_in_time (lim : Limiter) (t t2 : Time) (hle : t ≤ t2)
    (hok : (lim.Allow t).1 = true) : (lim.Allow t2).1 = true := by
  by_cases hInf : lim.limit = Inf
  · rw [Allow_Inf_eq lim t2 hInf]
  · by_cases h0 : lim.limit = 0
    · rw [Allow_zero_eq lim t h0] at hok
      rw [Allow_zero_eq lim t2 h0]
      exact hok
    · rw [Allow_general_eq lim t hInf h0] at hok
      rw [Allow_general_eq lim t2 hInf h0]
      split_ifs at hok with hgt
      have hmono : (lim.advance t).2 ≤ (lim.advance t2).2 := by
        rw [advance_snd, advance_snd]
        apply min_le_min_left
        apply add_le_add_left
        unfold tokensFromDuration
        split_ifs with hl
        · exact le_refl _
        · rw [Minutes_eq, Minutes_eq]
          apply mul_le_mul_of_nonneg_right _ (le_of_lt (not_le.mp hl))
          apply div_le_div_of_nonneg_right _ (by norm_num)
          exact_mod_cast Sub_mono lim.last hle
      have hgt2 : (lim.advance t2).2 - 1 > 0 := by linarith
      rw [if_pos hgt2]

theorem Allow_monotone_in_time_witness :
    (Limiter.Allow { limit := 5, burst := 5, tokens := 1, last := 0 } 60000000000).1 = true :=
  Allow_monotone_in_time { limit := 5, burst := 5, tokens := 1, last := 0 }
    30000000000 60000000000 (by decide)
    (by norm_num [Limiter.Allow, Limiter.advance, tokensFromDuration, Minutes_eq, Time.Sub,
      Inf, maxDuration, minDuration])

/-- C20: a limiter whose burst is at most 1 and whose rate is neither 0 nor `Inf`
never admits: at every clock reading `Allow` reports false and leaves the
limiter as it was, since the refilled balance is at most the burst and the
balance after the withdrawal has to be above zero. -/
theorem Allow_burst_le_one_denies (lim : Limiter) (now : Time) (hb : lim.burst ≤ 1)
    (h0 : lim.limit ≠ 0) (hInf : lim.limit ≠ Inf) :
    (lim.Allow now).1 = false ∧ (lim.Allow now).2 = lim := by
  rw [Allow_general_eq lim now hInf h0]
  have hcap := advance_snd_le_burst lim now
  have hb1 : (lim.burst : ℚ) ≤ 1 := by exact_mod_cast hb
  have hn : ¬ ((lim.advance now).2 - 1 > 0) := by
    intro h
    linarith
  rw [if_neg hn]
  exact ⟨rfl, rfl⟩

theorem Allow_burst_le_one_denies_witness :
    (Limiter.Allow { limit := 5, burst := 1, tokens := 1, last := 0 }
      63800000000000000000).1 = false :=
  (Allow_burst_le_one_denies { limit := 5, burst := 1, tokens := 1, last := 0 }
    63800000000000000000 (by decide) (by norm_num) (by norm_num [Inf])).1

/-! ## C15: refill in one step and in two -/

theorem Sub_eq_of_range {t u : Int} (h0 : 0 ≤ t - u) (h1 : t - u ≤ 9223372036854775807) :
    (Time.Sub t u : Int) = t - u := by
  rw [Sub_def]
  split_ifs <;> linarith

theorem min_min_add (b A e : ℚ) (he : 0 ≤ e) : min b (min b A + e) = min b (A + e) := by
  rcases le_total b A with h | h
  · rw [min_eq_left h, min_eq_left (by linarith), min_eq_left (by linarith)]
  · rw [min_eq_right h]

/-- C15 fails as stated: on the fresh limiter `NewLimiter(1e-8, 5)`, whose `last` is
the zero time, `Sub` saturates, so a no-op `SetLimit` at `t1` followed by `Allow`
one minute later at `t2` commits more tokens than `Allow` at `t2` alone, and
two refills differ from one. -/
theorem refill_drift_from_zero_time :
    (NewLimiter (1 / 100000000) 5).last ≤ 63800000000000000000 ∧
    (63800000000000000000 : Int) ≤ 63800000060000000000 ∧
    ((NewLimiter (1 / 100000000) 5).Allow 63800000060000000000).1 = true ∧
    (((NewLimiter (1 / 100000000) 5).SetLimit 63800000000000000000
        (1 / 100000000)).Allow 63800000060000000000).1 = true ∧
    (((NewLimiter (1 / 100000000) 5).SetLimit 63800000000000000000
        (1 / 100000000)).Allow 63800000060000000000).2.tokens
      ≠ ((NewLimiter (1 / 100000000) 5).Allow 63800000060000000000).2.tokens ∧
    (((NewLimiter (1 / 100000000) 5).SetLimit 63800000000000000000
        (1 / 100000000)).advance 63800000060000000000).2
      ≠ ((NewLimiter (1 / 100000000) 5).advance 63800000060000000000).2 := by
  refine ⟨by decide, by decide, ?_, ?_, ?_, ?_⟩
  · norm_num [NewLimiter, Limiter.Allow, Limiter.advance, tokensFromDuration, Minutes_eq,
      Time.Sub, Inf, maxDuration, minDuration]
  · norm_num [NewLimiter, Limiter.SetLimit, Limiter.Allow, Limiter.advance,
      tokensFromDuration, Minutes_eq, Time.Sub, Inf, maxDuration, minDuration]
  · norm_num [NewLimiter, Limiter.SetLimit, Limiter.Allow, Limiter.advance,
      tokensFromDuration, Minutes_eq, Time.Sub, Inf, maxDuration, minDuration]
  · norm_num [NewLimiter, Limiter.SetLimit, Limiter.advance,
      tokensFromDuration, Minutes_eq, Time.Sub, Inf, maxDuration, minDuration]

theorem advance_twice (lim : Limiter) (t1 t2 : Time) (h1 : lim.last ≤ t1) (h2 : t1 ≤ t2)
    (hrange : t2 - lim.last ≤ 9223372036854775807) :
    ((lim.SetLimit t1 lim.limit).advance t2).2 = (lim.advance t2).2 := by
  have e1 : (Time.Sub t1 lim.last : Int) = t1 - lim.last :=
    Sub_eq_of_range (by linarith) (by linarith)
  have e2 : (Time.Sub t2 t1 : Int) = t2 - t1 := Sub_eq_of_range (by linarith) (by linarith)
  have e3 : (Time.Sub t2 lim.last : Int) = t2 - lim.last :=
    Sub_eq_of_range (by linarith) hrange
  rw [advance_snd, advance_snd, SetLimit_eq, advance_snd]
  simp only [e1, e2, e3]
  unfold tokensFromDuration
  split_ifs with hl
  · simp
  · rw [Minutes_eq, Minutes_eq, Minutes_eq]
    have hr : 0 < lim.limit := not_le.mp hl
    have he : (0 : ℚ) ≤ ((t2 - t1 : Int) : ℚ) / 60000000000 * lim.limit := by
      apply mul_nonneg _ (le_of_lt hr)
      apply div_nonneg _ (by norm_num)
      exact_mod_cast (by linarith : (0 : Int) ≤ t2 - t1)
    rw [min_min_add _ _ _ he]
    congr 1
    push_cast
    ring

/-- C15 as amended: for a positive rate other than `Inf` and times
`last <= t1 <= t2` with `t2 - last` within the range of a `Duration` (at most
`2^63 - 1` nanoseconds), a no-op `SetLimit(rate)` at `t1` followed by `Allow`
at `t2` gives the decision of `Allow` at `t2` alone and, when admitted, the
same limiter afterwards; and the refill at `t1` followed by the refill at `t2`
gives the tokens of the single refill at `t2`. -/
theorem refill_path_independent (lim : Limiter) (t1 t2 : Time) (hpos : 0 < lim.limit)
    (hfin : lim.limit ≠ Inf) (h1 : lim.last ≤ t1) (h2 : t1 ≤ t2)
    (hrange : t2 - lim.last ≤ 9223372036854775807) :
    ((lim.SetLimit t1 lim.limit).advance t2) = lim.advance t2 ∧
    ((lim.SetLimit t1 lim.limit).Allow t2).1 = (lim.Allow t2).1 ∧
    ((lim.Allow t2).1 = true →
      ((lim.SetLimit t1 lim.limit).Allow t2).2 = (lim.Allow t2).2) := by
  have hadv := advance_twice lim t1 t2 h1 h2 hrange
  have h0 : lim.limit ≠ 0 := ne_of_gt hpos
  have hl : (lim.SetLimit t1 lim.limit).limit = lim.limit := rfl
  have e := Allow_general_eq (lim.SetLimit t1 lim.limit) t2 (by rw [hl]; exact hfin)
    (by rw [hl]; exact h0)
  rw [hadv] at e
  rw [e, Allow_general_eq lim t2 hfin h0]
  refine ⟨Prod.ext rfl hadv, ?_, ?_⟩
  · split_ifs <;> rfl
  · intro hok
    split_ifs at hok ⊢ with hgt
    rfl

theorem refill_path_independent_witness :
    ((Limiter.SetLimit { limit := 5, burst := 5, tokens := 1, last := 0 } 30000000000 5).Allow
        60000000000).1
      = (Limiter.Allow { limit := 5, burst := 5, tokens := 1, last := 0 } 60000000000).1 :=
  (refill_path_independent { limit := 5, burst := 5, tokens := 1, last := 0 }
    30000000000 60000000000 (by norm_num) (by norm_num [Inf]) (by decide) (by decide)
    (by decide)).2.1

/-! ## C16: bounds on the refilled tokens -/

theorem tokensFromDuration_nonneg (limit : Limit) (d : Duration) (hd : (0 : Int) ≤ d) :
    0 ≤ tokensFromDuration limit d := by
  unfold tokensFromDuration
  split_ifs with hl
  · exact le_refl _
  · rw [Minutes_eq]
    apply mul_nonneg _ (le_of_lt (not_le.mp hl))
    apply div_nonneg _ (by norm_num)
    exact_mod_cast hd

theorem advance_nonneg (lim : Limiter) (t : Time) (htok : 0 ≤ lim.tokens)
    (hb : 0 ≤ lim.burst) (hlast : lim.last ≤ t) : 0 ≤ (lim.advance t).2 := by
  rw [advance_snd]
  apply le_min
  · exact_mod_cast hb
  · exact add_nonneg htok (tokensFromDuration_nonneg _ _ (Sub_nonneg hlast))

/-- One call keeps the tokens and the burst at or above zero and `last` at or
before the clock reading of the call. -/
theorem call_keeps_nonneg (lim : Limiter) (c : Call) (now : Time) (htok : 0 ≤ lim.tokens)
    (hb : 0 ≤ lim.burst) (hlast : lim.last ≤ now)
    (hc : ∀ nb : Int, c = Call.setBurst nb → 0 ≤ nb) :
    0 ≤ (lim.call c now).tokens ∧ 0 ≤ (lim.call c now).burst ∧ (lim.call c now).last ≤ now := by
  cases c with
  | allow =>
    simp only [Limiter.call]
    by_cases hInf : lim.limit = Inf
    · rw [Allow_Inf_eq lim now hInf]
      exact ⟨htok, hb, hlast⟩
    · by_cases h0 : lim.limit = 0
      · rw [Allow_zero_eq lim now h0]
        split_ifs with h1
        · exact ⟨htok, by show (0 : Int) ≤ lim.burst - 1; linarith, hlast⟩
        · exact ⟨htok, hb, hlast⟩
      · rw [Allow_general_eq lim now hInf h0]
        split_ifs with hgt
        · exact ⟨le_of_lt hgt, hb, le_refl _⟩
        · exact ⟨htok, hb, hlast⟩
  | setLimit newLimit =>
    simp only [Limiter.call, SetLimit_eq]
    exact ⟨advance_nonneg lim now htok hb hlast, hb, le_refl _⟩
  | setBurst newBurst =>
    simp only [Limiter.call, SetBurst_eq]
    exact ⟨advance_nonneg lim now htok hb hlast, hc newBurst rfl, le_refl _⟩

theorem runCalls_keeps_nonneg (calls : List (Call × Time)) :
    ∀ (lim : Limiter) (lo : Time), 0 ≤ lim.tokens → 0 ≤ lim.burst → lim.last ≤ lo →
      List.Pairwise (fun a b : Int => a ≤ b) (lo :: calls.map Prod.snd) →
      (∀ (nb : Int) (now : Time), (Call.setBurst nb, now) ∈ calls → 0 ≤ nb) →
      0 ≤ (runCalls lim calls).tokens ∧ 0 ≤ (runCalls lim calls).burst ∧
      ∀ t : Time, (∀ s ∈ lo :: calls.map Prod.snd, s ≤ t) → (runCalls lim calls).last ≤ t := by
  induction calls with
  | nil =>
    intro lim lo htok hb hlast _ _
    refine ⟨htok, hb, fun t ht => ?_⟩
    exact le_trans hlast (ht lo (List.mem_cons_self _ _))
  | cons k rest ih =>
    intro lim lo htok hb hlast hsorted hbursts
    obtain ⟨c, now⟩ := k
    simp only [List.map_cons] at hsorted ⊢
    have hs := List.pairwise_cons.mp hsorted
    have hlo : lo ≤ now := hs.1 now (List.mem_cons_self _ _)
    obtain ⟨htok1, hb1, hlast1⟩ := call_keeps_nonneg lim c now htok hb (le_trans hlast hlo)
      (fun nb hnb => hbursts nb now (by rw [hnb]; exact List.mem_cons_self _ _))
    obtain ⟨r1, r2, r3⟩ := ih (lim.call c now) now htok1 hb1 hlast1 hs.2
      (fun nb t hmem => hbursts nb t (List.mem_cons_of_mem _ hmem))
    refine ⟨r1, r2, fun t ht => ?_⟩
    exact r3 t (fun s hmem => ht s (List.mem_cons_of_mem _ hmem))

/-- C16 as amended: over exact arithmetic and for finite rates (rationals in
place of `float64`, so neither a NaN nor an infinity), take `NewLimiter(r, b)`
with `b >= 0` and any run of `Allow`, `SetLimit` and `SetBurst` calls, the new
bursts not negative, at non-decreasing clock readings from the zero time on.  The tokens that `advance` computes from the
limiter after the run, at any reading `t` not earlier than the calls, are at
least 0 and at most the burst then in force.  (The refills made inside the
run are the case of the calls before them.) -/
theorem refill_bounds (r : Limit) (b : Int) (hb : 0 ≤ b) (calls : List (Call × Time))
    (t : Time)
    (htimes : List.Pairwise (fun a b : Int => a ≤ b) (0 :: (calls.map Prod.snd ++ [t])))
    (hbursts : ∀ (nb : Int) (now : Time), (Call.setBurst nb, now) ∈ calls → 0 ≤ nb) :
    0 ≤ ((runCalls (NewLimiter r b) calls).advance t).2 ∧
    ((runCalls (NewLimiter r b) calls).advance t).2
      ≤ ((runCalls (NewLimiter r b) calls).burst : ℚ) := by
  refine ⟨?_, advance_snd_le_burst _ t⟩
  rw [← List.cons_append] at htimes
  have hp := List.pairwise_append.mp htimes
  obtain ⟨h1, h2, h3⟩ := runCalls_keeps_nonneg calls (NewLimiter r b) 0 (le_refl _) hb
    (le_refl _) hp.1 hbursts
  apply advance_nonneg _ t h1 h2
  exact h3 t (fun s hs => hp.2.2 s hs t (List.mem_singleton_self t))

theorem refill_bounds_witness :
    0 ≤ ((runCalls (NewLimiter 5 5)
          [(Call.allow, 100), (Call.setBurst 2, 100), (Call.setLimit 0, 200),
           (Call.allow, 300)]).advance 400).2 :=
  (refill_bounds 5 5 (by decide)
    [(Call.allow, 100), (Call.setBurst 2, 100), (Call.setLimit 0, 200), (Call.allow, 300)]
    400 (by decide)
    (by
      intro nb now h
      simp at h
      rw [h.1]
      decide)).1

/-! ## C13: the first check after the entry was removed -/

/-- C13 fails as stated: with the defaults rate `1e-9` per minute and burst 5, the
limiter of the identity denies its next check; a sweep four minutes after
`lastSeen` removes the entry; the check one minute later builds a fresh
limiter and is denied as well, since the accrual from the zero time is capped
by the range of `Sub` at less than one token. -/
theorem fresh_bucket_denied_at_small_rate :
    ((NewLimiter (1 / 1000000000) 5).Allow 63800000300000000000).1 = false ∧
    CleanupClients
        (Function.update (fun _ => none) "/user/1/data"
          (some { limiter := NewLimiter (1 / 1000000000) 5,
                  lastSeen := 63800000000000000000 }))
        (fun _ => 63800000240000000000) "/user/1/data" = none ∧
    (PerClientRateLimiter { limit := 1 / 1000000000, brust := 5 }
        (CleanupClients
          (Function.update (fun _ => none) "/user/1/data"
            (some { limiter := NewLimiter (1 / 1000000000) 5,
                    lastSeen := 63800000000000000000 }))
          (fun _ => 63800000240000000000))
        "/user/1/data" 63800000300000000000 63800000300000000000).1 = false := by
  have hden : ((NewLimiter (1 / 1000000000) 5).Allow 63800000300000000000).1 = false := by
    norm_num [NewLimiter, Limiter.Allow, Limiter.advance, tokensFromDuration, Minutes_eq,
      Time.Sub, Inf, maxDuration, minDuration]
  have hsweep : CleanupClients
      (Function.update (fun _ => none) "/user/1/data"
        (some { limiter := NewLimiter (1 / 1000000000) 5,
                lastSeen := 63800000000000000000 }))
      (fun _ => 63800000240000000000) "/user/1/data" = none := by
    simp only [CleanupClients, Function.update_same]
    norm_num [Time.Sub, maxDuration, minDuration, Minute]
  refine ⟨hden, hsweep, ?_⟩
  simp only [PerClientRateLimiter, hsweep]
  exact hden

/-- C13 as amended: let the entry of `id` be removed by a sweep whose reading is
more than 3 minutes after `lastSeen`, and let the defaults have burst `>= 2`
and a positive rate other than `Inf` whose accrual from the zero time to the
next check, rate times `now.Sub(zero)` in minutes, is above one token.  Then
the next check for `id` is admitted, on a fresh `NewLimiter(rate, burst)`:
the entry afterwards holds the defaults, `last = now` and
`min(burst, accrual) - 1` tokens, which is `burst - 1` (a full bucket less the
admitted request) once the accrual reaches the burst. -/
theorem fresh_bucket_after_sweep (incommming : IncommingLimit) (clients : Clients)
    (id : String) (c : client) (sweep : String → Time) (seen now : Time)
    (hc : clients id = some c) (hidle : sweep id - c.lastSeen > 180000000000)
    (hburst : 2 ≤ incommming.brust) (hpos : 0 < incommming.limit)
    (hfin : incommming.limit ≠ Inf)
    (hacc : 1 < ((Time.Sub now 0 : Int) : ℚ) / 60000000000 * incommming.limit) :
    CleanupClients clients sweep id = none ∧
    (PerClientRateLimiter incommming (CleanupClients clients sweep) id seen now).1 = true ∧
    (PerClientRateLimiter incommming (CleanupClients clients sweep) id seen now).2 id
      = some { limiter :=
                 { limit := incommming.limit, burst := incommming.brust,
                   tokens := min (incommming.brust : ℚ)
                     (((Time.Sub now 0 : Int) : ℚ) / 60000000000 * incommming.limit) - 1,
                   last := now },
               lastSeen := seen } ∧
    ((incommming.brust : ℚ) ≤ ((Time.Sub now 0 : Int) : ℚ) / 60000000000 * incommming.limit →
      min (incommming.brust : ℚ)
          (((Time.Sub now 0 : Int) : ℚ) / 60000000000 * incommming.limit) - 1
        = (incommming.brust : ℚ) - 1) := by
  have hsweep : CleanupClients clients sweep id = none := by
    simp only [CleanupClients, hc]
    rw [if_pos ((Sub_gt_three_minutes (sweep id) c.lastSeen).mpr hidle)]
  have hb2 : (2 : ℚ) ≤ (incommming.brust : ℚ) := by exact_mod_cast hburst
  have hgt : min (incommming.brust : ℚ)
      (((Time.Sub now 0 : Int) : ℚ) / 60000000000 * incommming.limit) - 1 > 0 := by
    have : 1 < min (incommming.brust : ℚ)
        (((Time.Sub now 0 : Int) : ℚ) / 60000000000 * incommming.limit) :=
      lt_min (by linarith) hacc
    linarith
  have hallow := Allow_pos_eq (NewLimiter incommming.limit incommming.brust) now hpos hfin
  simp only [NewLimiter, zero_add] at hallow
  rw [if_pos hgt] at hallow
  refine ⟨hsweep, ?_, ?_, ?_⟩
  · simp only [PerClientRateLimiter, hsweep, NewLimiter, hallow]
  · simp only [PerClientRateLimiter, hsweep, NewLimiter, hallow, Function.update_same]
  · intro hfull
    rw [min_eq_left hfull]

theorem fresh_bucket_after_sweep_witness :
    (Limiter.Allow
        { limit := 1 / 1000000, burst := 5, tokens := 1 / 2, last := 63800000000000000000 }
        63800000300000000000).1 = false ∧
    (PerClientRateLimiter { limit := 1 / 1000000, brust := 5 }
        (CleanupClients
          (Function.update (fun _ => none) "/user/1/data"
            (some { limiter := { limit := 1 / 1000000, burst := 5, tokens := 1 / 2,
                                 last := 63800000000000000000 },
                    lastSeen := 63800000000000000000 }))
          (fun _ => 63800000240000000000))
        "/user/1/data" 63800000300000000000 63800000300000000000).1 = true :=
  ⟨by norm_num [Limiter.Allow, Limiter.advance, tokensFromDuration, Minutes_eq, Time.Sub,
      Inf, maxDuration, minDuration],
   (fresh_bucket_after_sweep { limit := 1 / 1000000, brust := 5 }
    (Function.update (fun _ => none) "/user/1/data"
      (some { limiter := { limit := 1 / 1000000, burst := 5, tokens := 1 / 2,
                           last := 63800000000000000000 },
              lastSeen := 63800000000000000000 }))
    "/user/1/data" _ (fun _ => 63800000240000000000) 63800000300000000000
    63800000300000000000
    (Function.update_same _ _ _) (by decide) (by decide) (by norm_num) (by norm_num [Inf])
    (by norm_num [Time.Sub, maxDuration, minDuration])).2.1⟩

/-! ## C14: reconfiguration of all clients -/

/-- C14 as amended: the loop of `UpdateRateLimiterHandler` with a value `v` whose
truncation fits in 64 bits (for any other `v` the burst that `int(limit)`
yields is left to the implementation).  Every identity in the map keeps its entry with `lastSeen`
unchanged and a limiter of rate `v` and burst `v` truncated toward zero; an
identity is in the map afterwards exactly when it was before; and a later
check for an identity that is not in the map builds its limiter from the
defaults of its route, not from `v`. -/
theorem UpdateRateLimiterHandler_all (outOfRange : Int) (clients : Clients) (v : ℚ)
    (now1 now2 : String → Time)
    (hlo : -(2 ^ 63) ≤ (if 0 ≤ v then ⌊v⌋ else ⌈v⌉))
    (hhi : (if 0 ≤ v then ⌊v⌋ else ⌈v⌉) ≤ 2 ^ 63 - 1) :
    (∀ (id : String) (c : client), clients id = some c →
      ∃ c2 : client, UpdateRateLimiterHandler outOfRange clients v now1 now2 id = some c2 ∧
        c2.limiter.limit = v ∧ c2.limiter.burst = (if 0 ≤ v then ⌊v⌋ else ⌈v⌉) ∧
        c2.lastSeen = c.lastSeen) ∧
    (∀ id : String,
      UpdateRateLimiterHandler outOfRange clients v now1 now2 id = none ↔ clients id = none) ∧
    (∀ (id : String) (incommming : IncommingLimit) (seen now : Time), clients id = none →
      (PerClientRateLimiter incommming
          (UpdateRateLimiterHandler outOfRange clients v now1 now2) id seen now).1
        = ((NewLimiter incommming.limit incommming.brust).Allow now).1 ∧
      (PerClientRateLimiter incommming
          (UpdateRateLimiterHandler outOfRange clients v now1 now2) id seen now).2 id
        = some { limiter := ((NewLimiter incommming.limit incommming.brust).Allow now).2,
                 lastSeen := seen }) := by
  have hconv : floatToInt outOfRange v = (if 0 ≤ v then ⌊v⌋ else ⌈v⌉) := by
    simp only [floatToInt]
    rw [if_pos ⟨hlo, hhi⟩]
  refine ⟨?_, ?_, ?_⟩
  · intro id c hc
    refine ⟨{ limiter := (c.limiter.SetLimit (now1 id) v).SetBurst (now2 id)
                (floatToInt outOfRange v),
              lastSeen := c.lastSeen }, by simp only [UpdateRateLimiterHandler, hc], ?_, ?_, rfl⟩
    · rfl
    · simp only [SetBurst_eq, hconv]
  · intro id
    simp only [UpdateRateLimiterHandler]
    cases clients id <;> simp
  · intro id incommming seen now hc
    have hnone : UpdateRateLimiterHandler outOfRange clients v now1 now2 id = none := by
      simp only [UpdateRateLimiterHandler, hc]
    simp only [PerClientRateLimiter, hnone, Function.update_same]
    exact ⟨trivial, trivial⟩

theorem UpdateRateLimiterHandler_all_witness :
    ∃ c2 : client,
      UpdateRateLimiterHandler 0
          (Function.update (fun _ => none) "/user/1/data"
            (some { limiter := NewLimiter 5 5, lastSeen := 40 }))
          (7 / 2) (fun _ => 50) (fun _ => 51) "/user/1/data" = some c2 ∧
      c2.limiter.limit = 7 / 2 ∧ c2.limiter.burst = 3 ∧ c2.lastSeen = 40 := by
  have hfl : ⌊(7 / 2 : ℚ)⌋ = 3 := by
    rw [Int.floor_eq_iff]; norm_num
  have hp : (0 : ℚ) ≤ 7 / 2 := by norm_num
  obtain ⟨c2, h1, h2, h3, h4⟩ := (UpdateRateLimiterHandler_all 0
    (Function.update (fun _ => none) "/user/1/data"
      (some { limiter := NewLimiter 5 5, lastSeen := 40 }))
    (7 / 2) (fun _ => 50) (fun _ => 51)
    (by rw [if_pos hp, hfl]; norm_num) (by rw [if_pos hp, hfl]; norm_num)).1
    "/user/1/data" _ (Function.update_same _ _ _)
  rw [if_pos hp, hfl] at h3
  exact ⟨c2, h1, h2, h3, h4⟩

/-! ## C18: the identifier of a path -/

theorem splitGo_no_slash (s : List Char) :
    ∀ cur : List Char, '/' ∉ s → splitGo cur s = [cur ++ s] := by
  induction s with
  | nil => intro cur _; simp [splitGo]
  | cons c cs ih =>
    intro cur h
    have hc : c ≠ '/' := fun e => h (by rw [e]; exact List.mem_cons_self _ _)
    have hcs : '/' ∉ cs := fun e => h (List.mem_cons_of_mem _ e)
    simp only [splitGo, if_neg hc]
    rw [ih (cur ++ [c]) hcs]
    simp

theorem splitGo_append_slash (s : List Char) :
    ∀ cur rest : List Char, '/' ∉ s →
      splitGo cur (s ++ '/' :: rest) = (cur ++ s) :: splitGo [] rest := by
  induction s with
  | nil => intro cur rest _; simp [splitGo]
  | cons c cs ih =>
    intro cur rest h
    have hc : c ≠ '/' := fun e => h (by rw [e]; exact List.mem_cons_self _ _)
    have hcs : '/' ∉ cs := fun e => h (List.mem_cons_of_mem _ e)
    rw [List.cons_append, splitGo, if_neg hc, ih (cur ++ [c]) rest hcs]
    simp

theorem parseLoop_no_param (pathSegments : List (List Char)) (qs : List (List Char)) :
    ∀ k : Nat, (∀ q ∈ qs, startsWithColon q = false) →
      parseLoop pathSegments k qs = some ("", some "no dynamic parameter found") := by
  induction qs with
  | nil => intro k _; rfl
  | cons q rest ih =>
    intro k h
    have hq : startsWithColon q = false := h q (List.mem_cons_self _ _)
    simp only [parseLoop, hq, Bool.false_eq_true, if_false]
    exact ih (k + 1) (fun q2 h2 => h q2 (List.mem_cons_of_mem _ h2))

theorem parseLoop_first (pathSegments : List (List Char)) (qs : List (List Char)) :
    ∀ (k i : Nat) (q : List Char), qs.get? i = some q → startsWithColon q = true →
      (∀ (j : Nat) (q2 : List Char), j < i → qs.get? j = some q2 →
        startsWithColon q2 = false) →
      parseLoop pathSegments k qs
        = (match pathSegments.get? (k + i) with
           | some seg => some (String.mk seg, none)
           | none => none) := by
  induction qs with
  | nil => intro k i q h; simp at h
  | cons q0 rest ih =>
    intro k i q hget hq hfirst
    cases i with
    | zero =>
      simp only [List.get?_cons_zero, Option.some.injEq] at hget
      subst hget
      simp only [parseLoop, hq, if_true, Nat.add_zero]
    | succ i2 =>
      have hq0 : startsWithColon q0 = false :=
        hfirst 0 q0 (Nat.succ_pos _) (List.get?_cons_zero)
      simp only [List.get?_cons_succ] at hget
      simp only [parseLoop, hq0, Bool.false_eq_true, if_false]
      rw [ih (k + 1) i2 q hget hq
        (fun j q2 hj hg => hfirst (j + 1) q2 (Nat.succ_lt_succ hj) (by simpa using hg))]
      have e : k + 1 + i2 = k + (i2 + 1) := by omega
      rw [e]

theorem parseLoop_total (pathSegments : List (List Char)) (qs : List (List Char)) :
    ∀ k : Nat, k + qs.length ≤ pathSegments.length →
      ∃ r : String × Option String, parseLoop pathSegments k qs = some r := by
  induction qs with
  | nil => intro k _; exact ⟨_, rfl⟩
  | cons q rest ih =>
    intro k hk
    simp only [List.length_cons] at hk
    simp only [parseLoop]
    split_ifs with hq
    · have hlt : k < pathSegments.length := by omega
      rw [List.get?_eq_get hlt]
      exact ⟨_, rfl⟩
    · exact ih (k + 1) (by omega)

theorem Split_user_pattern :
    Split (Trim "/user/:id/data".data)
      = [['u', 's', 'e', 'r'], [':', 'i', 'd'], ['d', 'a', 't', 'a']] := by
  decide

theorem Split_user_path (id : List Char) (h : '/' ∉ id) :
    Split (Trim ("/user/".data ++ id ++ "/data".data))
      = [['u', 's', 'e', 'r'], id, ['d', 'a', 't', 'a']] := by
  have e1 : "/user/".data ++ id ++ "/data".data
      = '/' :: 'u' :: 's' :: 'e' :: 'r' :: '/' :: (id ++ ['/', 'd', 'a', 't', 'a']) := by
    have ha : "/user/".data = ['/', 'u', 's', 'e', 'r', '/'] := rfl
    have hb : "/data".data = ['/', 'd', 'a', 't', 'a'] := rfl
    rw [ha, hb]
    simp
  have e2 : 'u' :: 's' :: 'e' :: 'r' :: '/' :: (id ++ ['/', 'd', 'a', 't', 'a'])
      = ('u' :: 's' :: 'e' :: 'r' :: '/' :: (id ++ ['/', 'd', 'a', 't'])) ++ ['a'] := by
    simp
  have e3 : 'u' :: 's' :: 'e' :: 'r' :: '/' :: (id ++ ['/', 'd', 'a', 't', 'a'])
      = ['u', 's', 'e', 'r'] ++ '/' :: (id ++ '/' :: ['d', 'a', 't', 'a']) := by
    simp
  have hd : List.dropWhile (fun c => decide (c = '/'))
      ('/' :: 'u' :: 's' :: 'e' :: 'r' :: '/' :: (id ++ ['/', 'd', 'a', 't', 'a']))
        = 'u' :: 's' :: 'e' :: 'r' :: '/' :: (id ++ ['/', 'd', 'a', 't', 'a']) := by
    rw [List.dropWhile_cons_of_pos (by decide), List.dropWhile_cons_of_neg (by decide)]
  rw [e1]
  unfold Trim
  rw [hd, e2, List.rdropWhile_concat_neg _ _ _ (by decide), ← e2, e3]
  unfold Split
  rw [splitGo_append_slash _ _ _ (by decide), splitGo_append_slash _ _ _ h,
    splitGo_no_slash _ _ (by decide)]
  rfl

/-- C18: with `ps` and `qs` the segments of `path` and of `pattern` (each string
stripped of leading and trailing `/` and split on `/`), `ParseID` never panics
and: it returns an error when the two lengths differ; it returns an error when
the lengths agree and no segment of `qs` starts with `:`; and when the lengths
agree and `i` is the index of the first segment of `qs` that starts with `:`,
it returns the segment of `ps` at index `i` and no error.  For every `id`
without `/`, `ParseID("/user/" + id + "/data", "/user/:id/data")` returns `id`
and no error. -/
theorem ParseID_result (path pattern : String) :
    (∃ r : String × Option String, ParseID path pattern = some r) ∧
    ((Split (Trim path.data)).length ≠ (Split (Trim pattern.data)).length →
      ParseID path pattern = some ("", some "path does not match the expected pattern")) ∧
    ((Split (Trim path.data)).length = (Split (Trim pattern.data)).length →
      (∀ q ∈ Split (Trim pattern.data), startsWithColon q = false) →
      ParseID path pattern = some ("", some "no dynamic parameter found")) ∧
    ((Split (Trim path.data)).length = (Split (Trim pattern.data)).length →
      ∀ (i : Nat) (q : List Char), (Split (Trim pattern.data)).get? i = some q →
        startsWithColon q = true →
        (∀ (j : Nat) (q2 : List Char), j < i → (Split (Trim pattern.data)).get? j = some q2 →
          startsWithColon q2 = false) →
        ∃ seg : List Char, (Split (Trim path.data)).get? i = some seg ∧
          ParseID path pattern = some (String.mk seg, none)) ∧
    (∀ id : String, '/' ∉ id.data →
      ParseID ("/user/" ++ id ++ "/data") "/user/:id/data" = some (id, none)) := by
  have hfirst : (Split (Trim path.data)).length = (Split (Trim pattern.data)).length →
      ∀ (i : Nat) (q : List Char), (Split (Trim pattern.data)).get? i = some q →
        startsWithColon q = true →
        (∀ (j : Nat) (q2 : List Char), j < i → (Split (Trim pattern.data)).get? j = some q2 →
          startsWithColon q2 = false) →
        ∃ seg : List Char, (Split (Trim path.data)).get? i = some seg ∧
          ParseID path pattern = some (String.mk seg, none) := by
    intro hlen i q hget hq hj
    have hi : i < (Split (Trim path.data)).length := by
      rw [hlen]
      exact (List.get?_eq_some.mp hget).1
    refine ⟨(Split (Trim path.data)).get ⟨i, hi⟩, List.get?_eq_get hi, ?_⟩
    simp only [ParseID, ne_eq, hlen, not_true_eq_false, if_false]
    rw [parseLoop_first _ _ 0 i q hget hq hj, Nat.zero_add, List.get?_eq_get hi]
  refine ⟨?_, ?_, ?_, hfirst, ?_⟩
  · by_cases hlen : (Split (Trim path.data)).length = (Split (Trim pattern.data)).length
    · simp only [ParseID, ne_eq, hlen, not_true_eq_false, if_false]
      exact parseLoop_total _ _ 0 (by rw [hlen]; omega)
    · exact ⟨("", some "path does not match the expected pattern"),
        by simp only [ParseID, ne_eq, hlen, not_false_eq_true, if_true]⟩
  · intro hlen
    simp only [ParseID, ne_eq, hlen, not_false_eq_true, if_true]
  · intro hlen hno
    simp only [ParseID, ne_eq, hlen, not_true_eq_false, if_false]
    exact parseLoop_no_param _ _ 0 hno
  · intro id hid
    have hp : ("/user/" ++ id ++ "/data").data = "/user/".data ++ id.data ++ "/data".data := by
      simp only [String.data_append]
    simp only [ParseID, hp, Split_user_path id.data hid, Split_user_pattern]
    rfl

theorem ParseID_result_witness :
    ParseID ("/user/" ++ "42" ++ "/data") "/user/:id/data" = some ("42", none) ∧
    ParseID "/user/42" "/user/:id/data"
      = some ("", some "path does not match the expected pattern") :=
  ⟨(ParseID_result "" "").2.2.2.2 "42" (by decide),
   (ParseID_result "/user/42" "/user/:id/data").2.1 (by decide)⟩

/-! ## Evaluation of the float64 embedding -/

namespace IEEE

theorem roundHalfEven_eq (x : ℚ) (n : Int) (h1 : (n : ℚ) - 1 / 2 < x)
    (h2 : x < (n : ℚ) + 1 / 2) : roundHalfEven x = n := by
  unfold roundHalfEven
  by_cases hx : (n : ℚ) ≤ x
  · have hf : ⌊x⌋ = n := by
      rw [Int.floor_eq_iff]
      exact ⟨hx, by linarith⟩
    rw [hf, if_pos (by linarith)]
  · have hx2 : x < (n : ℚ) := not_le.mp hx
    have hf : ⌊x⌋ = n - 1 := by
      rw [Int.floor_eq_iff]
      push_cast
      exact ⟨by linarith, by linarith⟩
    rw [hf]
    push_cast
    rw [if_neg (by linarith), if_pos (by linarith)]
    ring

theorem roundHalfEven_tie (x : ℚ) (n : Int) (heven : n % 2 = 0)
    (h : x = (n : ℚ) + 1 / 2 ∨ x = (n : ℚ) - 1 / 2) : roundHalfEven x = n := by
  unfold roundHalfEven
  rcases h with h | h
  · have hf : ⌊x⌋ = n := by
      rw [Int.floor_eq_iff]
      exact ⟨by linarith, by linarith⟩
    rw [hf, if_neg (by linarith), if_neg (by linarith), if_pos heven]
  · have hf : ⌊x⌋ = n - 1 := by
      rw [Int.floor_eq_iff]
      push_cast
      exact ⟨by linarith, by linarith⟩
    rw [hf]
    push_cast
    rw [if_neg (by linarith), if_neg (by linarith), if_neg (by omega)]
    ring

theorem binade_eq (q : ℚ) (e : Int) (hq : q ≠ 0) (he : -1022 ≤ e)
    (hlo : (2 : ℚ) ^ e ≤ |q| ∨ e = -1022) (hhi : |q| < (2 : ℚ) ^ (e + 1)) :
    max (Int.log 2 |q|) (-1022) = e := by
  have hpos : 0 < |q| := abs_pos.mpr hq
  have h2 : ((2 : ℕ) : ℚ) = 2 := by norm_num
  have hlt : Int.log 2 |q| < e + 1 := by
    rw [← Int.lt_zpow_iff_log_lt (by norm_num) hpos, h2]
    exact hhi
  rcases hlo with hlo | hlo
  · have hle : e ≤ Int.log 2 |q| := by
      rw [← Int.zpow_le_iff_le_log (by norm_num) hpos, h2]
      exact hlo
    have : Int.log 2 |q| = e := by omega
    rw [this]
    exact max_eq_left he
  · rw [hlo] at hlt ⊢
    rcases le_total (Int.log 2 |q|) (-1022) with h | h
    · exact max_eq_right h
    · have : Int.log 2 |q| = -1022 := by omega
      rw [this]
      exact max_eq_left (le_refl _)

/-- Certificate for one rounding: `e` is the binade of `q` and `n` the nearest
integer to `q` in units of `2 ^ (e - 52)`, not halfway. -/
theorem roundToF64_eq (q r : ℚ) (e n : Int) (hq : q ≠ 0) (he : -1022 ≤ e)
    (hlo : (2 : ℚ) ^ e ≤ |q| ∨ e = -1022) (hhi : |q| < (2 : ℚ) ^ (e + 1))
    (h1 : (n : ℚ) - 1 / 2 < q / 2 ^ (e - 52)) (h2 : q / 2 ^ (e - 52) < (n : ℚ) + 1 / 2)
    (hr : r = (n : ℚ) * 2 ^ (e - 52)) (hfin : |r| < 2 ^ 1024) : roundToF64 q = F64.fin r := by
  unfold roundToF64
  rw [binade_eq q e hq he hlo hhi, roundHalfEven_eq _ n h1 h2, ← hr]
  rw [if_neg (not_le.mpr hfin)]

/-- Certificate for one rounding that falls halfway between two neighbours: the
even `n` is taken. -/
theorem roundToF64_eq_tie (q r : ℚ) (e n : Int) (hq : q ≠ 0) (he : -1022 ≤ e)
    (hlo : (2 : ℚ) ^ e ≤ |q| ∨ e = -1022) (hhi : |q| < (2 : ℚ) ^ (e + 1))
    (heven : n % 2 = 0)
    (h : q / 2 ^ (e - 52) = (n : ℚ) + 1 / 2 ∨ q / 2 ^ (e - 52) = (n : ℚ) - 1 / 2)
    (hr : r = (n : ℚ) * 2 ^ (e - 52)) (hfin : |r| < 2 ^ 1024) :
    roundToF64 q = F64.fin r := by
  unfold roundToF64
  rw [binade_eq q e hq he hlo hhi, roundHalfEven_tie _ n heven h, ← hr]
  rw [if_neg (not_le.mpr hfin)]

theorem roundToF64_zero : roundToF64 0 = F64.fin 0 := by
  unfold roundToF64
  have h : roundHalfEven (0 / 2 ^ (max (Int.log 2 |(0 : ℚ)|) (-1022) - 52)) = 0 := by
    rw [zero_div]
    exact roundHalfEven_eq 0 0 (by norm_num) (by norm_num)
  rw [h]
  norm_num

theorem ofInt_eq (n : Int) : ofInt n = roundToF64 ((n : Int) : ℚ) := rfl

theorem add_fin (a b : ℚ) : add (F64.fin a) (F64.fin b) = roundToF64 (a + b) := rfl

theorem sub_fin (a b : ℚ) : sub (F64.fin a) (F64.fin b) = roundToF64 (a - b) := rfl

theorem mul_fin (a b : ℚ) : mul (F64.fin a) (F64.fin b) = roundToF64 (a * b) := rfl

theorem div_fin (a b : ℚ) (hb : b ≠ 0) :
    div (F64.fin a) (F64.fin b) = roundToF64 (a / b) := by
  simp only [div, if_neg hb]

theorem gt_fin (a b : ℚ) : gt (F64.fin a) (F64.fin b) = decide (b < a) := rfl

theorem le_fin (a b : ℚ) : le (F64.fin a) (F64.fin b) = decide (a ≤ b) := by
  simp only [le, lt, eq]
  rw [← Bool.decide_or]
  exact decide_eq_decide.mpr le_iff_lt_or_eq.symm

theorem eq_fin (a b : ℚ) : eq (F64.fin a) (F64.fin b) = decide (a = b) := rfl

theorem Minutes_eval (d m ns : Int) (a b c r : F64) (hm : Int.tdiv d Minute = m)
    (hn : Int.tmod d Minute = ns) (ha : ofInt m = a) (hb : ofInt ns = b)
    (hc : div b (F64.fin 60000000000) = c) (hr : add a c = r) : Minutes d = r := by
  unfold Minutes
  rw [hm, hn, ha, hb, hc, hr]

theorem tokensFromDuration_eval (l : ℚ) (d : Duration) (m r : F64) (hl : 0 < l)
    (hm : Minutes d = m) (hr : mul m (F64.fin l) = r) :
    tokensFromDuration (F64.fin l) d = r := by
  unfold tokensFromDuration
  rw [le_fin, hm, hr]
  have h : decide (l ≤ 0) = false := decide_eq_false (not_le.mpr hl)
  rw [h]
  rfl

theorem advance_eval (limit : Limit) (burst : Int) (tokens : F64) (last t : Time) (d : Int)
    (delta sum b res : F64) (hs : Time.Sub t last = d)
    (hd : tokensFromDuration limit d = delta) (hsum : add tokens delta = sum)
    (hb : ofInt burst = b) (hres : (if gt sum b then b else sum) = res) :
    Limiter.advance { limit := limit, burst := burst, tokens := tokens, last := last } t
      = (t, res) := by
  simp only [Limiter.advance, hs, hd, hsum, hb, hres]

theorem Allow_eval (limit : Limit) (burst : Int) (tokens : F64) (last now : Time)
    (res one x : F64) (hInf : eq limit Inf = false) (h0 : eq limit (F64.fin 0) = false)
    (hadv : Limiter.advance { limit := limit, burst := burst, tokens := tokens, last := last }
      now = (now, res))
    (hone : ofInt 1 = one) (hsub : sub res one = x) :
    Limiter.Allow { limit := limit, burst := burst, tokens := tokens, last := last } now
      = if gt x (F64.fin 0)
        then (true, { limit := limit, burst := burst, tokens := x, last := now })
        else (false, { limit := limit, burst := burst, tokens := tokens, last := last }) := by
  simp only [Limiter.Allow, hInf, h0, hadv, hone, hsub, Bool.false_eq_true, if_false]

theorem mul_nan (x : F64) : mul x F64.nan = F64.nan := by
  cases x <;> rfl

theorem add_nan (x : F64) : add x F64.nan = F64.nan := by
  cases x <;> rfl

theorem lt_nan_left (x : F64) : lt F64.nan x = false := by
  cases x <;> rfl

theorem lt_nan_right (x : F64) : lt x F64.nan = false := by
  cases x <;> rfl

theorem le_nan_left (x : F64) : le F64.nan x = false := by
  cases x <;> rfl

theorem le_nan_right (x : F64) : le x F64.nan = false := by
  cases x <;> rfl

/-- With a NaN rate the refill is a NaN, at every clock reading. -/
theorem advance_nan_rate (lim : Limiter) (t : Time) (h : lim.limit = F64.nan) :
    (lim.advance t).2 = F64.nan := by
  simp only [Limiter.advance, tokensFromDuration, h, le_nan_left, Bool.false_eq_true,
    if_false, mul_nan, add_nan, gt, lt_nan_right]

theorem float_run_six :
    (allowSeq (NewLimiter (F64.fin 5) 5)
      [63800000000000000000,
       63800000000001127129,
       63800000000005901958,
       63800000000006431337,
       63800000000008571012,
       63800000012000000000]).1
      = [true, true, true, true, true, true] := by
  have h1 : eq (F64.fin 5) Inf = false := by
    rw [Inf, eq_fin]
    exact decide_eq_false (by norm_num)
  have h2 : eq (F64.fin 5) (F64.fin 0) = false := by
    rw [eq_fin]
    exact decide_eq_false (by norm_num)
  have h3 : Time.Sub 63800000000000000000 0 = 9223372036854775807 := by norm_num [Time.Sub, maxDuration, minDuration]
  have h4 : Int.tdiv 9223372036854775807 Minute = 153722867 := by norm_num [Minute, Int.tdiv]
  have h5 : Int.tmod 9223372036854775807 Minute = 16854775807 := by norm_num [Minute, Int.tmod]
  have h6 : ofInt 153722867 = F64.fin 153722867 := by
    rw [ofInt_eq]
    rw [show (((153722867 : Int) : ℚ)) = (153722867 : ℚ) from by norm_num]
    exact roundToF64_eq _ _ 27 5158083487596544 (by norm_num) (by norm_num) (by norm_num [abs_of_pos]) (by norm_num [abs_of_pos]) (by norm_num) (by norm_num) (by norm_num) (by norm_num [abs_of_pos])
  have h7 : ofInt 16854775807 = F64.fin 16854775807 := by
    rw [ofInt_eq]
    rw [show (((16854775807 : Int) : ℚ)) = (16854775807 : ℚ) from by norm_num]
    exact roundToF64_eq _ _ 33 8836756698300416 (by norm_num) (by norm_num) (by norm_num [abs_of_pos]) (by norm_num [abs_of_pos]) (by norm_num) (by norm_num) (by norm_num) (by norm_num [abs_of_pos])
  have h8 : div (F64.fin 16854775807) (F64.fin 60000000000) = F64.fin (5060477469587897 / 18014398509481984) := by
    rw [div_fin _ _ (by norm_num)]
    rw [show ((16854775807 : ℚ) / (60000000000 : ℚ)) = (16854775807 / 60000000000 : ℚ) from by norm_num]
    exact roundToF64_eq _ _ (-2) 5060477469587897 (by norm_num) (by norm_num) (by norm_num [abs_of_pos]) (by norm_num [abs_of_pos]) (by norm_num) (by norm_num) (by norm_num) (by norm_num [abs_of_pos])
  have h9 : add (F64.fin 153722867) (F64.fin (5060477469587897 / 18014398509481984)) = F64.fin (2579041748511209 / 16777216) := by
    rw [add_fin]
    rw [show ((153722867 : ℚ) + ((5060477469587897 / 18014398509481984) : ℚ)) = (2769224991218574734916025 / 18014398509481984 : ℚ) from by norm_num]
    exact roundToF64_eq _ _ 27 5158083497022418 (by norm_num) (by norm_num) (by norm_num [abs_of_pos]) (by norm_num [abs_of_pos]) (by norm_num) (by norm_num) (by norm_num) (by norm_num [abs_of_pos])
  have h10 : Minutes 9223372036854775807 = F64.fin (2579041748511209 / 16777216) := Minutes_eval _ _ _ _ _ _ _ h4 h5 h6 h7 h8 h9
  have h11 : mul (F64.fin (2579041748511209 / 16777216)) (F64.fin 5) = F64.fin (3223802185639011 / 4194304) := by
    rw [mul_fin]
    rw [show (((2579041748511209 / 16777216) : ℚ) * (5 : ℚ)) = (12895208742556045 / 16777216 : ℚ) from by norm_num]
    exact roundToF64_eq_tie _ _ 29 6447604371278022 (by norm_num) (by norm_num) (by norm_num [abs_of_pos]) (by norm_num [abs_of_pos]) (by decide) (by norm_num) (by norm_num) (by norm_num [abs_of_pos])
  have h12 : tokensFromDuration (F64.fin 5) 9223372036854775807 = F64.fin (3223802185639011 / 4194304) := tokensFromDuration_eval _ _ _ _ (by norm_num) h10 h11
  have h13 : add (F64.fin 0) (F64.fin (3223802185639011 / 4194304)) = F64.fin (3223802185639011 / 4194304) := by
    rw [add_fin]
    rw [show ((0 : ℚ) + ((3223802185639011 / 4194304) : ℚ)) = (3223802185639011 / 4194304 : ℚ) from by norm_num]
    exact roundToF64_eq _ _ 29 6447604371278022 (by norm_num) (by norm_num) (by norm_num [abs_of_pos]) (by norm_num [abs_of_pos]) (by norm_num) (by norm_num) (by norm_num) (by norm_num [abs_of_pos])
  have h14 : ofInt 5 = F64.fin 5 := by
    rw [ofInt_eq]
    rw [show (((5 : Int) : ℚ)) = (5 : ℚ) from by norm_num]
    exact roundToF64_eq _ _ 2 5629499534213120 (by norm_num) (by norm_num) (by norm_num [abs_of_pos]) (by norm_num [abs_of_pos]) (by norm_num) (by norm_num) (by norm_num) (by norm_num [abs_of_pos])
  have h15 : (if gt (F64.fin (3223802185639011 / 4194304)) (F64.fin 5) then F64.fin 5 else F64.fin (3223802185639011 / 4194304)) = F64.fin 5 := by
    rw [gt_fin]
    norm_num
  have h16 : Limiter.advance { limit := F64.fin 5, burst := 5, tokens := F64.fin 0, last := 0 } 63800000000000000000 = (63800000000000000000, F64.fin 5) :=
    advance_eval _ _ _ _ _ _ _ _ _ _ h3 h12 h13 h14 h15
  have h17 : ofInt 1 = F64.fin 1 := by
    rw [ofInt_eq]
    rw [show (((1 : Int) : ℚ)) = (1 : ℚ) from by norm_num]
    exact roundToF64_eq _ _ 0 4503599627370496 (by norm_num) (by norm_num) (by norm_num [abs_of_pos]) (by norm_num [abs_of_pos]) (by norm_num) (by norm_num) (by norm_num) (by norm_num [abs_of_pos])
  have h18 : sub (F64.fin 5) (F64.fin 1) = F64.fin 4 := by
    rw [sub_fin]
    rw [show ((5 : ℚ) - (1 : ℚ)) = (4 : ℚ) from by norm_num]
    exact roundToF64_eq _ _ 2 4503599627370496 (by norm_num) (by norm_num) (by norm_num [abs_of_pos]) (by norm_num [abs_of_pos]) (by norm_num) (by norm_num) (by norm_num) (by norm_num [abs_of_pos])
  have h19 : Limiter.Allow { limit := F64.fin 5, burst := 5, tokens := F64.fin 0, last := 0 } 63800000000000000000 = (true, { limit := F64.fin 5, burst := 5, tokens := F64.fin 4, last := 63800000000000000000 }) := by
    rw [Allow_eval _ _ _ _ _ _ _ _ h1 h2 h16 h17 h18, gt_fin]
    rw [if_pos (decide_eq_true (by norm_num))]
  have h20 : Time.Sub 63800000000001127129 63800000000000000000 = 1127129 := by norm_num [Time.Sub, maxDuration, minDuration]
  have h21 : Int.tdiv 1127129 Minute = 0 := by norm_num [Minute, Int.tdiv]
  have h22 : Int.tmod 1127129 Minute = 1127129 := by norm_num [Minute, Int.tmod]
  have h23 : ofInt 0 = F64.fin 0 := by
    rw [ofInt_eq]
    rw [show (((0 : Int) : ℚ)) = (0 : ℚ) from by norm_num]
    exact roundToF64_zero
  have h24 : ofInt 1127129 = F64.fin 1127129 := by
    rw [ofInt_eq]
    rw [show (((1127129 : Int) : ℚ)) = (1127129 : ℚ) from by norm_num]
    exact roundToF64_eq _ _ 20 4840982193373184 (by norm_num) (by norm_num) (by norm_num [abs_of_pos]) (by norm_num [abs_of_pos]) (by norm_num) (by norm_num) (by norm_num) (by norm_num [abs_of_pos])
  have h25 : div (F64.fin 1127129) (F64.fin 60000000000) = F64.fin (1386124013403745 / 73786976294838206464) := by
    rw [div_fin _ _ (by norm_num)]
    rw [show ((1127129 : ℚ) / (60000000000 : ℚ)) = (1127129 / 60000000000 : ℚ) from by norm_num]
    exact roundToF64_eq _ _ (-16) 5544496053614980 (by norm_num) (by norm_num) (by norm_num [abs_of_pos]) (by norm_num [abs_of_pos]) (by norm_num) (by norm_num) (by norm_num) (by norm_num [abs_of_pos])
  have h26 : add (F64.fin 0) (F64.fin (1386124013403745 / 73786976294838206464)) = F64.fin (1386124013403745 / 73786976294838206464) := by
    rw [add_fin]
    rw [show ((0 : ℚ) + ((1386124013403745 / 73786976294838206464) : ℚ)) = (1386124013403745 / 73786976294838206464 : ℚ) from by norm_num]
    exact roundToF64_eq _ _ (-16) 5544496053614980 (by norm_num) (by norm_num) (by norm_num [abs_of_pos]) (by norm_num [abs_of_pos]) (by norm_num) (by norm_num) (by norm_num) (by norm_num [abs_of_pos])
  have h27 : Minutes 1127129 = F64.fin (1386124013403745 / 73786976294838206464) := Minutes_eval _ _ _ _ _ _ _ h21 h22 h23 h24 h25 h26
  have h28 : mul (F64.fin (1386124013403745 / 73786976294838206464)) (F64.fin 5) = F64.fin (6930620067018725 / 73786976294838206464) := by
    rw [mul_fin]
    rw [show (((1386124013403745 / 73786976294838206464) : ℚ) * (5 : ℚ)) = (6930620067018725 / 73786976294838206464 : ℚ) from by norm_num]
    exact roundToF64_eq _ _ (-14) 6930620067018725 (by norm_num) (by norm_num) (by norm_num [abs_of_pos]) (by norm_num [abs_of_pos]) (by norm_num) (by norm_num) (by norm_num) (by norm_num [abs_of_pos])
  have h29 : tokensFromDuration (F64.fin 5) 1127129 = F64.fin (6930620067018725 / 73786976294838206464) := tokensFromDuration_eval _ _ _ _ (by norm_num) h27 h28
  have h30 : add (F64.fin 4) (F64.fin (6930620067018725 / 73786976294838206464)) = F64.fin (4503705380240171 / 1125899906842624) := by
    rw [add_fin]
    rw [show ((4 : ℚ) + ((6930620067018725 / 73786976294838206464) : ℚ)) = (295154835799419844581 / 73786976294838206464 : ℚ) from by norm_num]
    exact roundToF64_eq _ _ 2 4503705380240171 (by norm_num) (by norm_num) (by norm_num [abs_of_pos]) (by norm_num [abs_of_pos]) (by norm_num) (by norm_num) (by norm_num) (by norm_num [abs_of_pos])
  have h31 : ofInt 5 = F64.fin 5 := by
    rw [ofInt_eq]
    rw [show (((5 : Int) : ℚ)) = (5 : ℚ) from by norm_num]
    exact roundToF64_eq _ _ 2 5629499534213120 (by norm_num) (by norm_num) (by norm_num [abs_of_pos]) (by norm_num [abs_of_pos]) (by norm_num) (by norm_num) (by norm_num) (by norm_num [abs_of_pos])
  have h32 : (if gt (F64.fin (4503705380240171 / 1125899906842624)) (F64.fin 5) then F64.fin 5 else F64.fin (4503705380240171 / 1125899906842624)) = F64.fin (4503705380240171 / 1125899906842624) := by
    rw [gt_fin]
    norm_num
  have h33 : Limiter.advance { limit := F64.fin 5, burst := 5, tokens := F64.fin 4, last := 63800000000000000000 } 63800000000001127129 = (63800000000001127129, F64.fin (4503705380240171 / 1125899906842624)) :=
    advance_eval _ _ _ _ _ _ _ _ _ _ h20 h29 h30 h31 h32
  have h34 : ofInt 1 = F64.fin 1 := by
    rw [ofInt_eq]
    rw [show (((1 : Int) : ℚ)) = (1 : ℚ) from by norm_num]
    exact roundToF64_eq _ _ 0 4503599627370496 (by norm_num) (by norm_num) (by norm_num [abs_of_pos]) (by norm_num [abs_of_pos]) (by norm_num) (by norm_num) (by norm_num) (by norm_num [abs_of_pos])
  have h35 : sub (F64.fin (4503705380240171 / 1125899906842624)) (F64.fin 1) = F64.fin (3377805473397547 / 1125899906842624) := by
    rw [sub_fin]
    rw [show (((4503705380240171 / 1125899906842624) : ℚ) - (1 : ℚ)) = (3377805473397547 / 1125899906842624 : ℚ) from by norm_num]
    exact roundToF64_eq _ _ 1 6755610946795094 (by norm_num) (by norm_num) (by norm_num [abs_of_pos]) (by norm_num [abs_of_pos]) (by norm_num) (by norm_num) (by norm_num) (by norm_num [abs_of_pos])
  have h36 : Limiter.Allow { limit := F64.fin 5, burst := 5, tokens := F64.fin 4, last := 63800000000000000000 } 63800000000001127129 = (true, { limit := F64.fin 5, burst := 5, tokens := F64.fin (3377805473397547 / 1125899906842624), last := 63800000000001127129 }) := by
    rw [Allow_eval _ _ _ _ _ _ _ _ h1 h2 h33 h34 h35, gt_fin]
    rw [if_pos (decide_eq_true (by norm_num))]
  have h37 : Time.Sub 63800000000005901958 63800000000001127129 = 4774829 := by norm_num [Time.Sub, maxDuration, minDuration]
  have h38 : Int.tdiv 4774829 Minute = 0 := by norm_num [Minute, Int.tdiv]
  have h39 : Int.tmod 4774829 Minute = 4774829 := by norm_num [Minute, Int.tmod]
  have h40 : ofInt 0 = F64.fin 0 := by
    rw [ofInt_eq]
    rw [show (((0 : Int) : ℚ)) = (0 : ℚ) from by norm_num]
    exact roundToF64_zero
  have h41 : ofInt 4774829 = F64.fin 4774829 := by
    rw [ofInt_eq]
    rw [show (((4774829 : Int) : ℚ)) = (4774829 : ℚ) from by norm_num]
    exact roundToF64_eq _ _ 22 5126933599748096 (by norm_num) (by norm_num) (by norm_num [abs_of_pos]) (by norm_num [abs_of_pos]) (by norm_num) (by norm_num) (by norm_num) (by norm_num [abs_of_pos])
  have h42 : div (F64.fin 4774829) (F64.fin 60000000000) = F64.fin (2936001618624217 / 36893488147419103232) := by
    rw [div_fin _ _ (by norm_num)]
    rw [show ((4774829 : ℚ) / (60000000000 : ℚ)) = (4774829 / 60000000000 : ℚ) from by norm_num]
    exact roundToF64_eq _ _ (-14) 5872003237248434 (by norm_num) (by norm_num) (by norm_num [abs_of_pos]) (by norm_num [abs_of_pos]) (by norm_num) (by norm_num) (by norm_num) (by norm_num [abs_of_pos])
  have h43 : add (F64.fin 0) (F64.fin (2936001618624217 / 36893488147419103232)) = F64.fin (2936001618624217 / 36893488147419103232) := by
    rw [add_fin]
    rw [show ((0 : ℚ) + ((2936001618624217 / 36893488147419103232) : ℚ)) = (2936001618624217 / 36893488147419103232 : ℚ) from by norm_num]
    exact roundToF64_eq _ _ (-14) 5872003237248434 (by norm_num) (by norm_num) (by norm_num [abs_of_pos]) (by norm_num [abs_of_pos]) (by norm_num) (by norm_num) (by norm_num) (by norm_num [abs_of_pos])
  have h44 : Minutes 4774829 = F64.fin (2936001618624217 / 36893488147419103232) := Minutes_eval _ _ _ _ _ _ _ h38 h39 h40 h41 h42 h43
  have h45 : mul (F64.fin (2936001618624217 / 36893488147419103232)) (F64.fin 5) = F64.fin (3670002023280271 / 9223372036854775808) := by
    rw [mul_fin]
    rw [show (((2936001618624217 / 36893488147419103232) : ℚ) * (5 : ℚ)) = (14680008093121085 / 36893488147419103232 : ℚ) from by norm_num]
    exact roundToF64_eq_tie _ _ (-12) 7340004046560542 (by norm_num) (by norm_num) (by norm_num [abs_of_pos]) (by norm_num [abs_of_pos]) (by decide) (by norm_num) (by norm_num) (by norm_num [abs_of_pos])
  have h46 : tokensFromDuration (F64.fin 5) 4774829 = F64.fin (3670002023280271 / 9223372036854775808) := tokensFromDuration_eval _ _ _ _ (by norm_num) h44 h45
  have h47 : add (F64.fin (3377805473397547 / 1125899906842624)) (F64.fin (3670002023280271 / 9223372036854775808)) = F64.fin (6756506943382809 / 2251799813685248) := by
    rw [add_fin]
    rw [show (((3377805473397547 / 1125899906842624) : ℚ) + ((3670002023280271 / 9223372036854775808) : ℚ)) = (27674652440095985295 / 9223372036854775808 : ℚ) from by norm_num]
    exact roundToF64_eq _ _ 1 6756506943382809 (by norm_num) (by norm_num) (by norm_num [abs_of_pos]) (by norm_num [abs_of_pos]) (by norm_num) (by norm_num) (by norm_num) (by norm_num [abs_of_pos])
  have h48 : ofInt 5 = F64.fin 5 := by
    rw [ofInt_eq]
    rw [show (((5 : Int) : ℚ)) = (5 : ℚ) from by norm_num]
    exact roundToF64_eq _ _ 2 5629499534213120 (by norm_num) (by norm_num) (by norm_num [abs_of_pos]) (by norm_num [abs_of_pos]) (by norm_num) (by norm_num) (by norm_num) (by norm_num [abs_of_pos])
  have h49 : (if gt (F64.fin (6756506943382809 / 2251799813685248)) (F64.fin 5) then F64.fin 5 else F64.fin (6756506943382809 / 2251799813685248)) = F64.fin (6756506943382809 / 2251799813685248) := by
    rw [gt_fin]
    norm_num
  have h50 : Limiter.advance { limit := F64.fin 5, burst := 5, tokens := F64.fin (3377805473397547 / 1125899906842624), last := 63800000000001127129 } 63800000000005901958 = (63800000000005901958, F64.fin (6756506943382809 / 2251799813685248)) :=
    advance_eval _ _ _ _ _ _ _ _ _ _ h37 h46 h47 h48 h49
  have h51 : ofInt 1 = F64.fin 1 := by
    rw [ofInt_eq]
    rw [show (((1 : Int) : ℚ)) = (1 : ℚ) from by norm_num]
    exact roundToF64_eq _ _ 0 4503599627370496 (by norm_num) (by norm_num) (by norm_num [abs_of_pos]) (by norm_num [abs_of_pos]) (by norm_num) (by norm_num) (by norm_num) (by norm_num [abs_of_pos])
  have h52 : sub (F64.fin (6756506943382809 / 2251799813685248)) (F64.fin 1) = F64.fin (4504707129697561 / 2251799813685248) := by
    rw [sub_fin]
    rw [show (((6756506943382809 / 2251799813685248) : ℚ) - (1 : ℚ)) = (4504707129697561 / 2251799813685248 : ℚ) from by norm_num]
    exact roundToF64_eq _ _ 1 4504707129697561 (by norm_num) (by norm_num) (by norm_num [abs_of_pos]) (by norm_num [abs_of_pos]) (by norm_num) (by norm_num) (by norm_num) (by norm_num [abs_of_pos])
  have h53 : Limiter.Allow { limit := F64.fin 5, burst := 5, tokens := F64.fin (3377805473397547 / 1125899906842624), last := 63800000000001127129 } 63800000000005901958 = (true, { limit := F64.fin 5, burst := 5, tokens := F64.fin (4504707129697561 / 2251799813685248), last := 63800000000005901958 }) := by
    rw [Allow_eval _ _ _ _ _ _ _ _ h1 h2 h50 h51 h52, gt_fin]
    rw [if_pos (decide_eq_true (by norm_num))]
  have h54 : Time.Sub 63800000000006431337 63800000000005901958 = 529379 := by norm_num [Time.Sub, maxDuration, minDuration]
  have h55 : Int.tdiv 529379 Minute = 0 := by norm_num [Minute, Int.tdiv]
  have h56 : Int.tmod 529379 Minute = 529379 := by norm_num [Minute, Int.tmod]
  have h57 : ofInt 0 = F64.fin 0 := by
    rw [ofInt_eq]
    rw [show (((0 : Int) : ℚ)) = (0 : ℚ) from by norm_num]
    exact roundToF64_zero
  have h58 : ofInt 529379 = F64.fin 529379 := by
    rw [ofInt_eq]
    rw [show (((529379 : Int) : ℚ)) = (529379 : ℚ) from by norm_num]
    exact roundToF64_eq _ _ 19 4547330984378368 (by norm_num) (by norm_num) (by norm_num [abs_of_pos]) (by norm_num [abs_of_pos]) (by norm_num) (by norm_num) (by norm_num) (by norm_num [abs_of_pos])
  have h59 : div (F64.fin 529379) (F64.fin 60000000000) = F64.fin (2604085048265677 / 295147905179352825856) := by
    rw [div_fin _ _ (by norm_num)]
    rw [show ((529379 : ℚ) / (60000000000 : ℚ)) = (529379 / 60000000000 : ℚ) from by norm_num]
    exact roundToF64_eq _ _ (-17) 5208170096531354 (by norm_num) (by norm_num) (by norm_num [abs_of_pos]) (by norm_num [abs_of_pos]) (by norm_num) (by norm_num) (by norm_num) (by norm_num [abs_of_pos])
  have h60 : add (F64.fin 0) (F64.fin (2604085048265677 / 295147905179352825856)) = F64.fin (2604085048265677 / 295147905179352825856) := by
    rw [add_fin]
    rw [show ((0 : ℚ) + ((2604085048265677 / 295147905179352825856) : ℚ)) = (2604085048265677 / 295147905179352825856 : ℚ) from by norm_num]
    exact roundToF64_eq _ _ (-17) 5208170096531354 (by norm_num) (by norm_num) (by norm_num [abs_of_pos]) (by norm_num [abs_of_pos]) (by norm_num) (by norm_num) (by norm_num) (by norm_num [abs_of_pos])
  have h61 : Minutes 529379 = F64.fin (2604085048265677 / 295147905179352825856) := Minutes_eval _ _ _ _ _ _ _ h55 h56 h57 h58 h59 h60
  have h62 : mul (F64.fin (2604085048265677 / 295147905179352825856)) (F64.fin 5) = F64.fin (50861036098939 / 1152921504606846976) := by
    rw [mul_fin]
    rw [show (((2604085048265677 / 295147905179352825856) : ℚ) * (5 : ℚ)) = (13020425241328385 / 295147905179352825856 : ℚ) from by norm_num]
    exact roundToF64_eq_tie _ _ (-15) 6510212620664192 (by norm_num) (by norm_num) (by norm_num [abs_of_pos]) (by norm_num [abs_of_pos]) (by decide) (by norm_num) (by norm_num) (by norm_num [abs_of_pos])
  have h63 : tokensFromDuration (F64.fin 5) 529379 = F64.fin (50861036098939 / 1152921504606846976) := tokensFromDuration_eval _ _ _ _ (by norm_num) h61 h62
  have h64 : add (F64.fin (4504707129697561 / 2251799813685248)) (F64.fin (50861036098939 / 1152921504606846976)) = F64.fin (1126201616914673 / 562949953421312) := by
    rw [add_fin]
    rw [show (((4504707129697561 / 2251799813685248) : ℚ) + ((50861036098939 / 1152921504606846976) : ℚ)) = (2306460911441250171 / 1152921504606846976 : ℚ) from by norm_num]
    exact roundToF64_eq _ _ 1 4504806467658692 (by norm_num) (by norm_num) (by norm_num [abs_of_pos]) (by norm_num [abs_of_pos]) (by norm_num) (by norm_num) (by norm_num) (by norm_num [abs_of_pos])
  have h65 : ofInt 5 = F64.fin 5 := by
    rw [ofInt_eq]
    rw [show (((5 : Int) : ℚ)) = (5 : ℚ) from by norm_num]
    exact roundToF64_eq _ _ 2 5629499534213120 (by norm_num) (by norm_num) (by norm_num [abs_of_pos]) (by norm_num [abs_of_pos]) (by norm_num) (by norm_num) (by norm_num) (by norm_num [abs_of_pos])
  have h66 : (if gt (F64.fin (1126201616914673 / 562949953421312)) (F64.fin 5) then F64.fin 5 else F64.fin (1126201616914673 / 562949953421312)) = F64.fin (1126201616914673 / 562949953421312) := by
    rw [gt_fin]
    norm_num
  have h67 : Limiter.advance { limit := F64.fin 5, burst := 5, tokens := F64.fin (4504707129697561 / 2251799813685248), last := 63800000000005901958 } 63800000000006431337 = (63800000000006431337, F64.fin (1126201616914673 / 562949953421312)) :=
    advance_eval _ _ _ _ _ _ _ _ _ _ h54 h63 h64 h65 h66
  have h68 : ofInt 1 = F64.fin 1 := by
    rw [ofInt_eq]
    rw [show (((1 : Int) : ℚ)) = (1 : ℚ) from by norm_num]
    exact roundToF64_eq _ _ 0 4503599627370496 (by norm_num) (by norm_num) (by norm_num [abs_of_pos]) (by norm_num [abs_of_pos]) (by norm_num) (by norm_num) (by norm_num) (by norm_num [abs_of_pos])
  have h69 : sub (F64.fin (1126201616914673 / 562949953421312)) (F64.fin 1) = F64.fin (563251663493361 / 562949953421312) := by
    rw [sub_fin]
    rw [show (((1126201616914673 / 562949953421312) : ℚ) - (1 : ℚ)) = (563251663493361 / 562949953421312 : ℚ) from by norm_num]
    exact roundToF64_eq _ _ 0 4506013307946888 (by norm_num) (by norm_num) (by norm_num [abs_of_pos]) (by norm_num [abs_of_pos]) (by norm_num) (by norm_num) (by norm_num) (by norm_num [abs_of_pos])
  have h70 : Limiter.Allow { limit := F64.fin 5, burst := 5, tokens := F64.fin (4504707129697561 / 2251799813685248), last := 63800000000005901958 } 63800000000006431337 = (true, { limit := F64.fin 5, burst := 5, tokens := F64.fin (563251663493361 / 562949953421312), last := 63800000000006431337 }) := by
    rw [Allow_eval _ _ _ _ _ _ _ _ h1 h2 h67 h68 h69, gt_fin]
    rw [if_pos (decide_eq_true (by norm_num))]
  have h71 : Time.Sub 63800000000008571012 63800000000006431337 = 2139675 := by norm_num [Time.Sub, maxDuration, minDuration]
  have h72 : Int.tdiv 2139675 Minute = 0 := by norm_num [Minute, Int.tdiv]
  have h73 : Int.tmod 2139675 Minute = 2139675 := by norm_num [Minute, Int.tmod]
  have h74 : ofInt 0 = F64.fin 0 := by
    rw [ofInt_eq]
    rw [show (((0 : Int) : ℚ)) = (0 : ℚ) from by norm_num]
    exact roundToF64_zero
  have h75 : ofInt 2139675 = F64.fin 2139675 := by
    rw [ofInt_eq]
    rw [show (((2139675 : Int) : ℚ)) = (2139675 : ℚ) from by norm_num]
    exact roundToF64_eq _ _ 21 4594917074534400 (by norm_num) (by norm_num) (by norm_num [abs_of_pos]) (by norm_num [abs_of_pos]) (by norm_num) (by norm_num) (by norm_num) (by norm_num [abs_of_pos])
  have h76 : div (F64.fin 2139675) (F64.fin 60000000000) = F64.fin (2631335808394299 / 73786976294838206464) := by
    rw [div_fin _ _ (by norm_num)]
    rw [show ((2139675 : ℚ) / (60000000000 : ℚ)) = (28529 / 800000000 : ℚ) from by norm_num]
    exact roundToF64_eq _ _ (-15) 5262671616788598 (by norm_num) (by norm_num) (by norm_num [abs_of_pos]) (by norm_num [abs_of_pos]) (by norm_num) (by norm_num) (by norm_num) (by norm_num [abs_of_pos])
  have h77 : add (F64.fin 0) (F64.fin (2631335808394299 / 73786976294838206464)) = F64.fin (2631335808394299 / 73786976294838206464) := by
    rw [add_fin]
    rw [show ((0 : ℚ) + ((2631335808394299 / 73786976294838206464) : ℚ)) = (2631335808394299 / 73786976294838206464 : ℚ) from by norm_num]
    exact roundToF64_eq _ _ (-15) 5262671616788598 (by norm_num) (by norm_num) (by norm_num [abs_of_pos]) (by norm_num [abs_of_pos]) (by norm_num) (by norm_num) (by norm_num) (by norm_num [abs_of_pos])
  have h78 : Minutes 2139675 = F64.fin (2631335808394299 / 73786976294838206464) := Minutes_eval _ _ _ _ _ _ _ h72 h73 h74 h75 h76 h77
  have h79 : mul (F64.fin (2631335808394299 / 73786976294838206464)) (F64.fin 5) = F64.fin (1644584880246437 / 9223372036854775808) := by
    rw [mul_fin]
    rw [show (((2631335808394299 / 73786976294838206464) : ℚ) * (5 : ℚ)) = (13156679041971495 / 73786976294838206464 : ℚ) from by norm_num]
    exact roundToF64_eq_tie _ _ (-13) 6578339520985748 (by norm_num) (by norm_num) (by norm_num [abs_of_pos]) (by norm_num [abs_of_pos]) (by decide) (by norm_num) (by norm_num) (by norm_num [abs_of_pos])
  have h80 : tokensFromDuration (F64.fin 5) 2139675 = F64.fin (1644584880246437 / 9223372036854775808) := tokensFromDuration_eval _ _ _ _ (by norm_num) h78 h79
  have h81 : add (F64.fin (563251663493361 / 562949953421312)) (F64.fin (1644584880246437 / 9223372036854775808)) = F64.fin (2253408163953973 / 2251799813685248) := by
    rw [add_fin]
    rw [show (((563251663493361 / 562949953421312) : ℚ) + ((1644584880246437 / 9223372036854775808) : ℚ)) = (9229959839555473061 / 9223372036854775808 : ℚ) from by norm_num]
    exact roundToF64_eq _ _ 0 4506816327907946 (by norm_num) (by norm_num) (by norm_num [abs_of_pos]) (by norm_num [abs_of_pos]) (by norm_num) (by norm_num) (by norm_num) (by norm_num [abs_of_pos])
  have h82 : ofInt 5 = F64.fin 5 := by
    rw [ofInt_eq]
    rw [show (((5 : Int) : ℚ)) = (5 : ℚ) from by norm_num]
    exact roundToF64_eq _ _ 2 5629499534213120 (by norm_num) (by norm_num) (by norm_num [abs_of_pos]) (by norm_num [abs_of_pos]) (by norm_num) (by norm_num) (by norm_num) (by norm_num [abs_of_pos])
  have h83 : (if gt (F64.fin (2253408163953973 / 2251799813685248)) (F64.fin 5) then F64.fin 5 else F64.fin (2253408163953973 / 2251799813685248)) = F64.fin (2253408163953973 / 2251799813685248) := by
    rw [gt_fin]
    norm_num
  have h84 : Limiter.advance { limit := F64.fin 5, burst := 5, tokens := F64.fin (563251663493361 / 562949953421312), last := 63800000000006431337 } 63800000000008571012 = (63800000000008571012, F64.fin (2253408163953973 / 2251799813685248)) :=
    advance_eval _ _ _ _ _ _ _ _ _ _ h71 h80 h81 h82 h83
  have h85 : ofInt 1 = F64.fin 1 := by
    rw [ofInt_eq]
    rw [show (((1 : Int) : ℚ)) = (1 : ℚ) from by norm_num]
    exact roundToF64_eq _ _ 0 4503599627370496 (by norm_num) (by norm_num) (by norm_num [abs_of_pos]) (by norm_num [abs_of_pos]) (by norm_num) (by norm_num) (by norm_num) (by norm_num [abs_of_pos])
  have h86 : sub (F64.fin (2253408163953973 / 2251799813685248)) (F64.fin 1) = F64.fin (1608350268725 / 2251799813685248) := by
    rw [sub_fin]
    rw [show (((2253408163953973 / 2251799813685248) : ℚ) - (1 : ℚ)) = (1608350268725 / 2251799813685248 : ℚ) from by norm_num]
    exact roundToF64_eq _ _ (-11) 6587802700697600 (by norm_num) (by norm_num) (by norm_num [abs_of_pos]) (by norm_num [abs_of_pos]) (by norm_num) (by norm_num) (by norm_num) (by norm_num [abs_of_pos])
  have h87 : Limiter.Allow { limit := F64.fin 5, burst := 5, tokens := F64.fin (563251663493361 / 562949953421312), last := 63800000000006431337 } 63800000000008571012 = (true, { limit := F64.fin 5, burst := 5, tokens := F64.fin (1608350268725 / 2251799813685248), last := 63800000000008571012 }) := by
    rw [Allow_eval _ _ _ _ _ _ _ _ h1 h2 h84 h85 h86, gt_fin]
    rw [if_pos (decide_eq_true (by norm_num))]
  have h88 : Time.Sub 63800000012000000000 63800000000008571012 = 11991428988 := by norm_num [Time.Sub, maxDuration, minDuration]
  have h89 : Int.tdiv 11991428988 Minute = 0 := by norm_num [Minute, Int.tdiv]
  have h90 : Int.tmod 11991428988 Minute = 11991428988 := by norm_num [Minute, Int.tmod]
  have h91 : ofInt 0 = F64.fin 0 := by
    rw [ofInt_eq]
    rw [show (((0 : Int) : ℚ)) = (0 : ℚ) from by norm_num]
    exact roundToF64_zero
  have h92 : ofInt 11991428988 = F64.fin 11991428988 := by
    rw [ofInt_eq]
    rw [show (((11991428988 : Int) : ℚ)) = (11991428988 : ℚ) from by norm_num]
    exact roundToF64_eq _ _ 33 6286962321260544 (by norm_num) (by norm_num) (by norm_num [abs_of_pos]) (by norm_num [abs_of_pos]) (by norm_num) (by norm_num) (by norm_num) (by norm_num [abs_of_pos])
  have h93 : div (F64.fin 11991428988) (F64.fin 60000000000) = F64.fin (7200612682932875 / 36028797018963968) := by
    rw [div_fin _ _ (by norm_num)]
    rw [show ((11991428988 : ℚ) / (60000000000 : ℚ)) = (999285749 / 5000000000 : ℚ) from by norm_num]
    exact roundToF64_eq _ _ (-3) 7200612682932875 (by norm_num) (by norm_num) (by norm_num [abs_of_pos]) (by norm_num [abs_of_pos]) (by norm_num) (by norm_num) (by norm_num) (by norm_num [abs_of_pos])
  have h94 : add (F64.fin 0) (F64.fin (7200612682932875 / 36028797018963968)) = F64.fin (7200612682932875 / 36028797018963968) := by
    rw [add_fin]
    rw [show ((0 : ℚ) + ((7200612682932875 / 36028797018963968) : ℚ)) = (7200612682932875 / 36028797018963968 : ℚ) from by norm_num]
    exact roundToF64_eq _ _ (-3) 7200612682932875 (by norm_num) (by norm_num) (by norm_num [abs_of_pos]) (by norm_num [abs_of_pos]) (by norm_num) (by norm_num) (by norm_num) (by norm_num [abs_of_pos])
  have h95 : Minutes 11991428988 = F64.fin (7200612682932875 / 36028797018963968) := Minutes_eval _ _ _ _ _ _ _ h89 h90 h91 h92 h93 h94
  have h96 : mul (F64.fin (7200612682932875 / 36028797018963968)) (F64.fin 5) = F64.fin (4500382926833047 / 4503599627370496) := by
    rw [mul_fin]
    rw [show (((7200612682932875 / 36028797018963968) : ℚ) * (5 : ℚ)) = (36003063414664375 / 36028797018963968 : ℚ) from by norm_num]
    exact roundToF64_eq _ _ (-1) 9000765853666094 (by norm_num) (by norm_num) (by norm_num [abs_of_pos]) (by norm_num [abs_of_pos]) (by norm_num) (by norm_num) (by norm_num) (by norm_num [abs_of_pos])
  have h97 : tokensFromDuration (F64.fin 5) 11991428988 = F64.fin (4500382926833047 / 4503599627370496) := tokensFromDuration_eval _ _ _ _ (by norm_num) h95 h96
  have h98 : add (F64.fin (1608350268725 / 2251799813685248)) (F64.fin (4500382926833047 / 4503599627370496)) = F64.fin (4503599627370497 / 4503599627370496) := by
    rw [add_fin]
    rw [show (((1608350268725 / 2251799813685248) : ℚ) + ((4500382926833047 / 4503599627370496) : ℚ)) = (4503599627370497 / 4503599627370496 : ℚ) from by norm_num]
    exact roundToF64_eq _ _ 0 4503599627370497 (by norm_num) (by norm_num) (by norm_num [abs_of_pos]) (by norm_num [abs_of_pos]) (by norm_num) (by norm_num) (by norm_num) (by norm_num [abs_of_pos])
  have h99 : ofInt 5 = F64.fin 5 := by
    rw [ofInt_eq]
    rw [show (((5 : Int) : ℚ)) = (5 : ℚ) from by norm_num]
    exact roundToF64_eq _ _ 2 5629499534213120 (by norm_num) (by norm_num) (by norm_num [abs_of_pos]) (by norm_num [abs_of_pos]) (by norm_num) (by norm_num) (by norm_num) (by norm_num [abs_of_pos])
  have h100 : (if gt (F64.fin (4503599627370497 / 4503599627370496)) (F64.fin 5) then F64.fin 5 else F64.fin (4503599627370497 / 4503599627370496)) = F64.fin (4503599627370497 / 4503599627370496) := by
    rw [gt_fin]
    norm_num
  have h101 : Limiter.advance { limit := F64.fin 5, burst := 5, tokens := F64.fin (1608350268725 / 2251799813685248), last := 63800000000008571012 } 63800000012000000000 = (63800000012000000000, F64.fin (4503599627370497 / 4503599627370496)) :=
    advance_eval _ _ _ _ _ _ _ _ _ _ h88 h97 h98 h99 h100
  have h102 : ofInt 1 = F64.fin 1 := by
    rw [ofInt_eq]
    rw [show (((1 : Int) : ℚ)) = (1 : ℚ) from by norm_num]
    exact roundToF64_eq _ _ 0 4503599627370496 (by norm_num) (by norm_num) (by norm_num [abs_of_pos]) (by norm_num [abs_of_pos]) (by norm_num) (by norm_num) (by norm_num) (by norm_num [abs_of_pos])
  have h103 : sub (F64.fin (4503599627370497 / 4503599627370496)) (F64.fin 1) = F64.fin (1 / 4503599627370496) := by
    rw [sub_fin]
    rw [show (((4503599627370497 / 4503599627370496) : ℚ) - (1 : ℚ)) = (1 / 4503599627370496 : ℚ) from by norm_num]
    exact roundToF64_eq _ _ (-52) 4503599627370496 (by norm_num) (by norm_num) (by norm_num [abs_of_pos]) (by norm_num [abs_of_pos]) (by norm_num) (by norm_num) (by norm_num) (by norm_num [abs_of_pos])
  have h104 : Limiter.Allow { limit := F64.fin 5, burst := 5, tokens := F64.fin (1608350268725 / 2251799813685248), last := 63800000000008571012 } 63800000012000000000 = (true, { limit := F64.fin 5, burst := 5, tokens := F64.fin (1 / 4503599627370496), last := 63800000012000000000 }) := by
    rw [Allow_eval _ _ _ _ _ _ _ _ h1 h2 h101 h102 h103, gt_fin]
    rw [if_pos (decide_eq_true (by norm_num))]
  simp only [allowSeq, NewLimiter, h19, h36, h53, h70, h87, h104]

theorem tokensFromDuration_float_values :
    tokensFromDuration (F64.fin 5) 3 = F64.fin (4835703278458517 / 19342813113834066795298816) ∧
    add (tokensFromDuration (F64.fin 5) 1) (tokensFromDuration (F64.fin 5) 2) = F64.fin (1208925819614629 / 4835703278458516698824704) ∧
    tokensFromDuration (F64.fin 1) 1 = F64.fin (2579041748511209 / 154742504910672534362390528) := by
  have h1001 : Int.tdiv 3 Minute = 0 := by norm_num [Minute, Int.tdiv]
  have h1002 : Int.tmod 3 Minute = 3 := by norm_num [Minute, Int.tmod]
  have h1003 : ofInt 0 = F64.fin 0 := by
    rw [ofInt_eq]
    rw [show (((0 : Int) : ℚ)) = (0 : ℚ) from by norm_num]
    exact roundToF64_zero
  have h1004 : ofInt 3 = F64.fin 3 := by
    rw [ofInt_eq]
    rw [show (((3 : Int) : ℚ)) = (3 : ℚ) from by norm_num]
    exact roundToF64_eq _ _ 1 6755399441055744 (by norm_num) (by norm_num) (by norm_num [abs_of_pos]) (by norm_num [abs_of_pos]) (by norm_num) (by norm_num) (by norm_num) (by norm_num [abs_of_pos])
  have h1005 : div (F64.fin 3) (F64.fin 60000000000) = F64.fin (7737125245533627 / 154742504910672534362390528) := by
    rw [div_fin _ _ (by norm_num)]
    rw [show ((3 : ℚ) / (60000000000 : ℚ)) = (1 / 20000000000 : ℚ) from by norm_num]
    exact roundToF64_eq _ _ (-35) 7737125245533627 (by norm_num) (by norm_num) (by norm_num [abs_of_pos]) (by norm_num [abs_of_pos]) (by norm_num) (by norm_num) (by norm_num) (by norm_num [abs_of_pos])
  have h1006 : add (F64.fin 0) (F64.fin (7737125245533627 / 154742504910672534362390528)) = F64.fin (7737125245533627 / 154742504910672534362390528) := by
    rw [add_fin]
    rw [show ((0 : ℚ) + ((7737125245533627 / 154742504910672534362390528) : ℚ)) = (7737125245533627 / 154742504910672534362390528 : ℚ) from by norm_num]
    exact roundToF64_eq _ _ (-35) 7737125245533627 (by norm_num) (by norm_num) (by norm_num [abs_of_pos]) (by norm_num [abs_of_pos]) (by norm_num) (by norm_num) (by norm_num) (by norm_num [abs_of_pos])
  have h1007 : Minutes 3 = F64.fin (7737125245533627 / 154742504910672534362390528) := Minutes_eval _ _ _ _ _ _ _ h1001 h1002 h1003 h1004 h1005 h1006
  have h1008 : mul (F64.fin (7737125245533627 / 154742504910672534362390528)) (F64.fin 5) = F64.fin (4835703278458517 / 19342813113834066795298816) := by
    rw [mul_fin]
    rw [show (((7737125245533627 / 154742504910672534362390528) : ℚ) * (5 : ℚ)) = (38685626227668135 / 154742504910672534362390528 : ℚ) from by norm_num]
    exact roundToF64_eq _ _ (-32) 4835703278458517 (by norm_num) (by norm_num) (by norm_num [abs_of_pos]) (by norm_num [abs_of_pos]) (by norm_num) (by norm_num) (by norm_num) (by norm_num [abs_of_pos])
  have h1009 : tokensFromDuration (F64.fin 5) 3 = F64.fin (4835703278458517 / 19342813113834066795298816) := tokensFromDuration_eval _ _ _ _ (by norm_num) h1007 h1008
  have h1010 : Int.tdiv 1 Minute = 0 := by norm_num [Minute, Int.tdiv]
  have h1011 : Int.tmod 1 Minute = 1 := by norm_num [Minute, Int.tmod]
  have h1012 : ofInt 0 = F64.fin 0 := by
    rw [ofInt_eq]
    rw [show (((0 : Int) : ℚ)) = (0 : ℚ) from by norm_num]
    exact roundToF64_zero
  have h1013 : ofInt 1 = F64.fin 1 := by
    rw [ofInt_eq]
    rw [show (((1 : Int) : ℚ)) = (1 : ℚ) from by norm_num]
    exact roundToF64_eq _ _ 0 4503599627370496 (by norm_num) (by norm_num) (by norm_num [abs_of_pos]) (by norm_num [abs_of_pos]) (by norm_num) (by norm_num) (by norm_num) (by norm_num [abs_of_pos])
  have h1014 : div (F64.fin 1) (F64.fin 60000000000) = F64.fin (2579041748511209 / 154742504910672534362390528) := by
    rw [div_fin _ _ (by norm_num)]
    rw [show ((1 : ℚ) / (60000000000 : ℚ)) = (1 / 60000000000 : ℚ) from by norm_num]
    exact roundToF64_eq _ _ (-36) 5158083497022418 (by norm_num) (by norm_num) (by norm_num [abs_of_pos]) (by norm_num [abs_of_pos]) (by norm_num) (by norm_num) (by norm_num) (by norm_num [abs_of_pos])
  have h1015 : add (F64.fin 0) (F64.fin (2579041748511209 / 154742504910672534362390528)) = F64.fin (2579041748511209 / 154742504910672534362390528) := by
    rw [add_fin]
    rw [show ((0 : ℚ) + ((2579041748511209 / 154742504910672534362390528) : ℚ)) = (2579041748511209 / 154742504910672534362390528 : ℚ) from by norm_num]
    exact roundToF64_eq _ _ (-36) 5158083497022418 (by norm_num) (by norm_num) (by norm_num [abs_of_pos]) (by norm_num [abs_of_pos]) (by norm_num) (by norm_num) (by norm_num) (by norm_num [abs_of_pos])
  have h1016 : Minutes 1 = F64.fin (2579041748511209 / 154742504910672534362390528) := Minutes_eval _ _ _ _ _ _ _ h1010 h1011 h1012 h1013 h1014 h1015
  have h1017 : mul (F64.fin (2579041748511209 / 154742504910672534362390528)) (F64.fin 5) = F64.fin (3223802185639011 / 38685626227668133590597632) := by
    rw [mul_fin]
    rw [show (((2579041748511209 / 154742504910672534362390528) : ℚ) * (5 : ℚ)) = (12895208742556045 / 154742504910672534362390528 : ℚ) from by norm_num]
    exact roundToF64_eq_tie _ _ (-34) 6447604371278022 (by norm_num) (by norm_num) (by norm_num [abs_of_pos]) (by norm_num [abs_of_pos]) (by decide) (by norm_num) (by norm_num) (by norm_num [abs_of_pos])
  have h1018 : tokensFromDuration (F64.fin 5) 1 = F64.fin (3223802185639011 / 38685626227668133590597632) := tokensFromDuration_eval _ _ _ _ (by norm_num) h1016 h1017
  have h1019 : Int.tdiv 2 Minute = 0 := by norm_num [Minute, Int.tdiv]
  have h1020 : Int.tmod 2 Minute = 2 := by norm_num [Minute, Int.tmod]
  have h1021 : ofInt 0 = F64.fin 0 := by
    rw [ofInt_eq]
    rw [show (((0 : Int) : ℚ)) = (0 : ℚ) from by norm_num]
    exact roundToF64_zero
  have h1022 : ofInt 2 = F64.fin 2 := by
    rw [ofInt_eq]
    rw [show (((2 : Int) : ℚ)) = (2 : ℚ) from by norm_num]
    exact roundToF64_eq _ _ 1 4503599627370496 (by norm_num) (by norm_num) (by norm_num [abs_of_pos]) (by norm_num [abs_of_pos]) (by norm_num) (by norm_num) (by norm_num) (by norm_num [abs_of_pos])
  have h1023 : div (F64.fin 2) (F64.fin 60000000000) = F64.fin (2579041748511209 / 77371252455336267181195264) := by
    rw [div_fin _ _ (by norm_num)]
    rw [show ((2 : ℚ) / (60000000000 : ℚ)) = (1 / 30000000000 : ℚ) from by norm_num]
    exact roundToF64_eq _ _ (-35) 5158083497022418 (by norm_num) (by norm_num) (by norm_num [abs_of_pos]) (by norm_num [abs_of_pos]) (by norm_num) (by norm_num) (by norm_num) (by norm_num [abs_of_pos])
  have h1024 : add (F64.fin 0) (F64.fin (2579041748511209 / 77371252455336267181195264)) = F64.fin (2579041748511209 / 77371252455336267181195264) := by
    rw [add_fin]
    rw [show ((0 : ℚ) + ((2579041748511209 / 77371252455336267181195264) : ℚ)) = (2579041748511209 / 77371252455336267181195264 : ℚ) from by norm_num]
    exact roundToF64_eq _ _ (-35) 5158083497022418 (by norm_num) (by norm_num) (by norm_num [abs_of_pos]) (by norm_num [abs_of_pos]) (by norm_num) (by norm_num) (by norm_num) (by norm_num [abs_of_pos])
  have h1025 : Minutes 2 = F64.fin (2579041748511209 / 77371252455336267181195264) := Minutes_eval _ _ _ _ _ _ _ h1019 h1020 h1021 h1022 h1023 h1024
  have h1026 : mul (F64.fin (2579041748511209 / 77371252455336267181195264)) (F64.fin 5) = F64.fin (3223802185639011 / 19342813113834066795298816) := by
    rw [mul_fin]
    rw [show (((2579041748511209 / 77371252455336267181195264) : ℚ) * (5 : ℚ)) = (12895208742556045 / 77371252455336267181195264 : ℚ) from by norm_num]
    exact roundToF64_eq_tie _ _ (-33) 6447604371278022 (by norm_num) (by norm_num) (by norm_num [abs_of_pos]) (by norm_num [abs_of_pos]) (by decide) (by norm_num) (by norm_num) (by norm_num [abs_of_pos])
  have h1027 : tokensFromDuration (F64.fin 5) 2 = F64.fin (3223802185639011 / 19342813113834066795298816) := tokensFromDuration_eval _ _ _ _ (by norm_num) h1025 h1026
  have h1028 : add (F64.fin (3223802185639011 / 38685626227668133590597632)) (F64.fin (3223802185639011 / 19342813113834066795298816)) = F64.fin (1208925819614629 / 4835703278458516698824704) := by
    rw [add_fin]
    rw [show (((3223802185639011 / 38685626227668133590597632) : ℚ) + ((3223802185639011 / 19342813113834066795298816) : ℚ)) = (9671406556917033 / 38685626227668133590597632 : ℚ) from by norm_num]
    exact roundToF64_eq_tie _ _ (-32) 4835703278458516 (by norm_num) (by norm_num) (by norm_num [abs_of_pos]) (by norm_num [abs_of_pos]) (by decide) (by norm_num) (by norm_num) (by norm_num [abs_of_pos])
  have h1029 : Int.tdiv 1 Minute = 0 := by norm_num [Minute, Int.tdiv]
  have h1030 : Int.tmod 1 Minute = 1 := by norm_num [Minute, Int.tmod]
  have h1031 : ofInt 0 = F64.fin 0 := by
    rw [ofInt_eq]
    rw [show (((0 : Int) : ℚ)) = (0 : ℚ) from by norm_num]
    exact roundToF64_zero
  have h1032 : ofInt 1 = F64.fin 1 := by
    rw [ofInt_eq]
    rw [show (((1 : Int) : ℚ)) = (1 : ℚ) from by norm_num]
    exact roundToF64_eq _ _ 0 4503599627370496 (by norm_num) (by norm_num) (by norm_num [abs_of_pos]) (by norm_num [abs_of_pos]) (by norm_num) (by norm_num) (by norm_num) (by norm_num [abs_of_pos])
  have h1033 : div (F64.fin 1) (F64.fin 60000000000) = F64.fin (2579041748511209 / 154742504910672534362390528) := by
    rw [div_fin _ _ (by norm_num)]
    rw [show ((1 : ℚ) / (60000000000 : ℚ)) = (1 / 60000000000 : ℚ) from by norm_num]
    exact roundToF64_eq _ _ (-36) 5158083497022418 (by norm_num) (by norm_num) (by norm_num [abs_of_pos]) (by norm_num [abs_of_pos]) (by norm_num) (by norm_num) (by norm_num) (by norm_num [abs_of_pos])
  have h1034 : add (F64.fin 0) (F64.fin (2579041748511209 / 154742504910672534362390528)) = F64.fin (2579041748511209 / 154742504910672534362390528) := by
    rw [add_fin]
    rw [show ((0 : ℚ) + ((2579041748511209 / 154742504910672534362390528) : ℚ)) = (2579041748511209 / 154742504910672534362390528 : ℚ) from by norm_num]
    exact roundToF64_eq _ _ (-36) 5158083497022418 (by norm_num) (by norm_num) (by norm_num [abs_of_pos]) (by norm_num [abs_of_pos]) (by norm_num) (by norm_num) (by norm_num) (by norm_num [abs_of_pos])
  have h1035 : Minutes 1 = F64.fin (2579041748511209 / 154742504910672534362390528) := Minutes_eval _ _ _ _ _ _ _ h1029 h1030 h1031 h1032 h1033 h1034
  have h1036 : mul (F64.fin (2579041748511209 / 154742504910672534362390528)) (F64.fin 1) = F64.fin (2579041748511209 / 154742504910672534362390528) := by
    rw [mul_fin]
    rw [show (((2579041748511209 / 154742504910672534362390528) : ℚ) * (1 : ℚ)) = (2579041748511209 / 154742504910672534362390528 : ℚ) from by norm_num]
    exact roundToF64_eq _ _ (-36) 5158083497022418 (by norm_num) (by norm_num) (by norm_num [abs_of_pos]) (by norm_num [abs_of_pos]) (by norm_num) (by norm_num) (by norm_num) (by norm_num [abs_of_pos])
  have h1037 : tokensFromDuration (F64.fin 1) 1 = F64.fin (2579041748511209 / 154742504910672534362390528) := tokensFromDuration_eval _ _ _ _ (by norm_num) h1035 h1036
  rw [h1009, h1018, h1027, h1028, h1037]
  exact ⟨rfl, rfl, rfl⟩

theorem float_small_accrual_denied :
    Limiter.Allow { limit := F64.fin (1 / 1048576), burst := 2, tokens := F64.fin 1, last := 63800000000000000000 } 63800000000000000001
      = (false, { limit := F64.fin (1 / 1048576), burst := 2, tokens := F64.fin 1, last := 63800000000000000000 }) := by
  have h2001 : eq (F64.fin (1 / 1048576)) Inf = false := by
    rw [Inf, eq_fin]
    exact decide_eq_false (by norm_num)
  have h2002 : eq (F64.fin (1 / 1048576)) (F64.fin 0) = false := by
    rw [eq_fin]
    exact decide_eq_false (by norm_num)
  have h2003 : Time.Sub 63800000000000000001 63800000000000000000 = 1 := by norm_num [Time.Sub, maxDuration, minDuration]
  have h2004 : Int.tdiv 1 Minute = 0 := by norm_num [Minute, Int.tdiv]
  have h2005 : Int.tmod 1 Minute = 1 := by norm_num [Minute, Int.tmod]
  have h2006 : ofInt 0 = F64.fin 0 := by
    rw [ofInt_eq]
    rw [show (((0 : Int) : ℚ)) = (0 : ℚ) from by norm_num]
    exact roundToF64_zero
  have h2007 : ofInt 1 = F64.fin 1 := by
    rw [ofInt_eq]
    rw [show (((1 : Int) : ℚ)) = (1 : ℚ) from by norm_num]
    exact roundToF64_eq _ _ 0 4503599627370496 (by norm_num) (by norm_num) (by norm_num [abs_of_pos]) (by norm_num [abs_of_pos]) (by norm_num) (by norm_num) (by norm_num) (by norm_num [abs_of_pos])
  have h2008 : div (F64.fin 1) (F64.fin 60000000000) = F64.fin (2579041748511209 / 154742504910672534362390528) := by
    rw [div_fin _ _ (by norm_num)]
    rw [show ((1 : ℚ) / (60000000000 : ℚ)) = (1 / 60000000000 : ℚ) from by norm_num]
    exact roundToF64_eq _ _ (-36) 5158083497022418 (by norm_num) (by norm_num) (by norm_num [abs_of_pos]) (by norm_num [abs_of_pos]) (by norm_num) (by norm_num) (by norm_num) (by norm_num [abs_of_pos])
  have h2009 : add (F64.fin 0) (F64.fin (2579041748511209 / 154742504910672534362390528)) = F64.fin (2579041748511209 / 154742504910672534362390528) := by
    rw [add_fin]
    rw [show ((0 : ℚ) + ((2579041748511209 / 154742504910672534362390528) : ℚ)) = (2579041748511209 / 154742504910672534362390528 : ℚ) from by norm_num]
    exact roundToF64_eq _ _ (-36) 5158083497022418 (by norm_num) (by norm_num) (by norm_num [abs_of_pos]) (by norm_num [abs_of_pos]) (by norm_num) (by norm_num) (by norm_num) (by norm_num [abs_of_pos])
  have h2010 : Minutes 1 = F64.fin (2579041748511209 / 154742504910672534362390528) := Minutes_eval _ _ _ _ _ _ _ h2004 h2005 h2006 h2007 h2008 h2009
  have h2011 : mul (F64.fin (2579041748511209 / 154742504910672534362390528)) (F64.fin (1 / 1048576)) = F64.fin (2579041748511209 / 162259276829213363391578010288128) := by
    rw [mul_fin]
    rw [show (((2579041748511209 / 154742504910672534362390528) : ℚ) * ((1 / 1048576) : ℚ)) = (2579041748511209 / 162259276829213363391578010288128 : ℚ) from by norm_num]
    exact roundToF64_eq _ _ (-56) 5158083497022418 (by norm_num) (by norm_num) (by norm_num [abs_of_pos]) (by norm_num [abs_of_pos]) (by norm_num) (by norm_num) (by norm_num) (by norm_num [abs_of_pos])
  have h2012 : tokensFromDuration (F64.fin (1 / 1048576)) 1 = F64.fin (2579041748511209 / 162259276829213363391578010288128) := tokensFromDuration_eval _ _ _ _ (by norm_num) h2010 h2011
  have h2013 : add (F64.fin 1) (F64.fin (2579041748511209 / 162259276829213363391578010288128)) = F64.fin 1 := by
    rw [add_fin]
    rw [show ((1 : ℚ) + ((2579041748511209 / 162259276829213363391578010288128) : ℚ)) = (162259276829213365970619758799337 / 162259276829213363391578010288128 : ℚ) from by norm_num]
    exact roundToF64_eq _ _ 0 4503599627370496 (by norm_num) (by norm_num) (by norm_num [abs_of_pos]) (by norm_num [abs_of_pos]) (by norm_num) (by norm_num) (by norm_num) (by norm_num [abs_of_pos])
  have h2014 : ofInt 2 = F64.fin 2 := by
    rw [ofInt_eq]
    rw [show (((2 : Int) : ℚ)) = (2 : ℚ) from by norm_num]
    exact roundToF64_eq _ _ 1 4503599627370496 (by norm_num) (by norm_num) (by norm_num [abs_of_pos]) (by norm_num [abs_of_pos]) (by norm_num) (by norm_num) (by norm_num) (by norm_num [abs_of_pos])
  have h2015 : (if gt (F64.fin 1) (F64.fin 2) then F64.fin 2 else F64.fin 1) = F64.fin 1 := by
    rw [gt_fin]
    norm_num
  have h2016 : Limiter.advance { limit := F64.fin (1 / 1048576), burst := 2, tokens := F64.fin 1, last := 63800000000000000000 } 63800000000000000001 = (63800000000000000001, F64.fin 1) :=
    advance_eval _ _ _ _ _ _ _ _ _ _ h2003 h2012 h2013 h2014 h2015
  have h2017 : ofInt 1 = F64.fin 1 := by
    rw [ofInt_eq]
    rw [show (((1 : Int) : ℚ)) = (1 : ℚ) from by norm_num]
    exact roundToF64_eq _ _ 0 4503599627370496 (by norm_num) (by norm_num) (by norm_num [abs_of_pos]) (by norm_num [abs_of_pos]) (by norm_num) (by norm_num) (by norm_num) (by norm_num [abs_of_pos])
  have h2018 : sub (F64.fin 1) (F64.fin 1) = F64.fin 0 := by
    rw [sub_fin]
    rw [show ((1 : ℚ) - (1 : ℚ)) = (0 : ℚ) from by norm_num]
    exact roundToF64_zero
  have h2019 : Limiter.Allow { limit := F64.fin (1 / 1048576), burst := 2, tokens := F64.fin 1, last := 63800000000000000000 } 63800000000000000001 = (false, { limit := F64.fin (1 / 1048576), burst := 2, tokens := F64.fin 1, last := 63800000000000000000 }) := by
    rw [Allow_eval _ _ _ _ _ _ _ _ h2001 h2002 h2016 h2017 h2018, gt_fin]
    rw [if_neg (by rw [decide_eq_true_eq]; norm_num)]
  exact h2019

end IEEE

/-! ## C3, C6, C14, C16 and C17 as stated, on the code -/

/-- C3 fails as stated on the `float64` code: on a fresh `NewLimiter(5, 5)` six
calls at increasing readings, the last one 12 seconds after the first, are all
admitted (rounding leaves a balance of `2^-52` after the sixth), so that
`m = 6` equals `b + r * T = 5 + 5 * 0.2` and `m < b + r * T` is false. -/
theorem float_six_admitted_at_the_bound :
    (IEEE.allowSeq (IEEE.NewLimiter (IEEE.F64.fin 5) 5)
      [63800000000000000000, 63800000000001127129, 63800000000005901958,
       63800000000006431337, 63800000000008571012, 63800000012000000000]).1
      = [true, true, true, true, true, true] ∧
    ¬ ((6 : ℚ) < ((5 : Int) : ℚ)
        + 5 * (((63800000012000000000 - 63800000000000000000 : Int) : ℚ) / 60000000000)) :=
  ⟨IEEE.float_run_six, by norm_num⟩

/-- C6 fails as stated.  With `elapsed` read as `now - last`: on the fresh
`NewLimiter(1e-9, 5)`, whose `last` is the zero time, the formula gives
`refilled - 1 > 0` at a reading in the year 2022, but `Allow` denies, since
`Sub` caps the elapsed time.  With the formula read over exact numbers: at rate
`2^-20`, burst 2, one token and one nanosecond elapsed it gives
`refilled - 1 > 0`, but the `float64` code denies, since the accrual is lost
when it is added to the token. -/
theorem Allow_formula_fails_as_stated :
    ((NewLimiter (1 / 1000000000) 5).Allow 63800000300000000000).1 = false ∧
    min (((NewLimiter (1 / 1000000000) 5).burst : Int) : ℚ)
        ((NewLimiter (1 / 1000000000) 5).tokens
          + ((63800000300000000000 - (NewLimiter (1 / 1000000000) 5).last : Int) : ℚ)
              / 60000000000 * (1 / 1000000000)) - 1 > 0 ∧
    (IEEE.Limiter.Allow
        { limit := IEEE.F64.fin (1 / 1048576), burst := 2, tokens := IEEE.F64.fin 1,
          last := 63800000000000000000 } 63800000000000000001).1 = false ∧
    min ((2 : Int) : ℚ)
        (1 + ((63800000000000000001 - 63800000000000000000 : Int) : ℚ)
              / 60000000000 * (1 / 1048576)) - 1 > 0 := by
  refine ⟨?_, ?_, ?_, ?_⟩
  · norm_num [NewLimiter, Limiter.Allow, Limiter.advance, tokensFromDuration, Minutes_eq,
      Time.Sub, Inf, maxDuration, minDuration]
  · norm_num [NewLimiter]
  · rw [IEEE.float_small_accrual_denied]
  · norm_num

/-- C14 fails as stated: for the value `v = 10^30` the truncation does not fit in
64 bits; with the out-of-range result of `int(limit)` on amd64, the smallest
`int`, the burst after the loop is that value and not `v` truncated. -/
theorem UpdateRateLimiterHandler_burst_out_of_range :
    (UpdateRateLimiterHandler (-9223372036854775808)
        (Function.update (fun _ => none) "/user/1/data"
          (some { limiter := NewLimiter 5 5, lastSeen := 40 }))
        1000000000000000000000000000000 (fun _ => 50) (fun _ => 51) "/user/1/data").map
        (fun c => c.limiter.burst)
      = some (-9223372036854775808) ∧
    (if (0 : ℚ) ≤ 1000000000000000000000000000000
      then ⌊(1000000000000000000000000000000 : ℚ)⌋
      else ⌈(1000000000000000000000000000000 : ℚ)⌉) = 1000000000000000000000000000000 := by
  have hf : ⌊(1000000000000000000000000000000 : ℚ)⌋ = 1000000000000000000000000000000 := by
    rw [Int.floor_eq_iff]
    norm_num
  have hpos : (0 : ℚ) ≤ 1000000000000000000000000000000 := by norm_num
  constructor
  · simp only [UpdateRateLimiterHandler, Function.update_same, Option.map_some', SetBurst_eq,
      floatToInt, if_pos hpos, hf]
    norm_num
  · rw [if_pos hpos, hf]

/-- C16 fails as stated on the `float64` code: after `SetLimit(NaN)` on a fresh
`NewLimiter(5, 5)` (a rate that `strconv.ParseFloat` accepts), the tokens that
`advance` computes one minute later are a NaN, which is neither at least 0 nor
at most the burst. -/
theorem refill_not_a_number :
    (((IEEE.NewLimiter (IEEE.F64.fin 5) 5).SetLimit 63800000000000000000
        IEEE.F64.nan).advance 63800000060000000000).2 = IEEE.F64.nan ∧
    IEEE.le (IEEE.F64.fin 0) IEEE.F64.nan = false ∧
    IEEE.le IEEE.F64.nan
        (IEEE.ofInt ((IEEE.NewLimiter (IEEE.F64.fin 5) 5).SetLimit 63800000000000000000
          IEEE.F64.nan).burst) = false :=
  ⟨IEEE.advance_nan_rate _ _ rfl, IEEE.le_nan_right _, IEEE.le_nan_left _⟩

/-- C17 fails as stated on the `float64` code: `tokensFromDuration(5, 3ns)` is not
the sum of `tokensFromDuration(5, 1ns)` and `tokensFromDuration(5, 2ns)`, so the
result is not linear in the duration, and `tokensFromDuration(1, 1ns)` is not
`1 / 60000000000`, the limit times the duration in minutes. -/
theorem tokensFromDuration_float_not_linear :
    IEEE.tokensFromDuration (IEEE.F64.fin 5) 3
      ≠ IEEE.add (IEEE.tokensFromDuration (IEEE.F64.fin 5) 1)
          (IEEE.tokensFromDuration (IEEE.F64.fin 5) 2) ∧
    IEEE.tokensFromDuration (IEEE.F64.fin 1) 1 ≠ IEEE.F64.fin (1 * (1 / 60000000000)) := by
  obtain ⟨h3, h12, h1⟩ := IEEE.tokensFromDuration_float_values
  rw [h3, h12, h1]
  constructor
  · intro h
    injection h with h
    norm_num at h
  · intro h
    injection h with h
    norm_num at h

end RateLimiter
